import Mathlib

/-!
Verification of the minimega KVM lifecycle engine (src/src/minimega/kvm.go)
and the igor housekeeper (src/src/igor/main.go) against their specification.

The Go code is shallowly embedded: pure fragments become Lean functions,
Go's `error` results become an explicit result type, QMP round trips become
parameters describing the reply or failure, and run-time panics (failed
type assertions) become an explicit `crash` outcome.  Machine integers are
modelled as `Nat`/`Int` (no overflow is reachable in the modelled code:
ids, addresses and counters stay far below 2^63) and QMP JSON numbers as
exact rationals.
-/

/-- Result of a Go function returning `(α, error)`:
either a value or an error message. -/
inductive GoResult (α : Type) where
  | ok (val : α)
  | error (msg : String)
deriving DecidableEq

/-- Outcome of a Go statement sequence that can also panic:
`crash` models a run-time panic (e.g. a failed type assertion). -/
inductive QMResult where
  | ok (status : String) (completed : ℚ)
  | fail (status : String) (completed : ℚ) (msg : String)
  | crash
deriving DecidableEq

/-- A JSON value as delivered by the QMP client (`map[string]interface{}`):
a string, a number, a nested object, or anything else (`other`). -/
inductive JsonVal where
  | str (s : String)
  | num (x : ℚ)
  | obj (fields : List (String × JsonVal))
  | other

/-- Indexing a Go `map[string]interface{}` held as an association list. -/
def lookupJson (r : List (String × JsonVal)) (k : String) : Option JsonVal :=
  (r.find? (fun p => p.1 == k)).map Prod.snd

/-- The tail of `KvmVM.QueryMigrate` (kvm.go lines 433-442): unguarded type
assertions `ram["total"].(float64)` and `ram["transferred"].(float64)`
(a missing key yields an untyped nil, so the assertion panics → `crash`),
then the `total == 0` guard and the division. -/
def queryMigrateRam (status : String) (fields : List (String × JsonVal)) : QMResult :=
  match lookupJson fields "total" with
  | some (JsonVal.num total) =>
    match lookupJson fields "transferred" with
    | some (JsonVal.num transferred) =>
      if total = 0 then QMResult.fail status 0 "zero total ram!"
      else QMResult.ok status (transferred / total)
    | _ => QMResult.crash
  | _ => QMResult.crash

/-- `KvmVM.QueryMigrate` (kvm.go lines 397-443) applied to a decoded QMP
reply.  `status` is read with an unguarded string assertion; the switch
handles `"completed"` (sets `completed = 100.0`), `"failed"`, and
`"active"` (reads the `ram` sub-object); any other status falls through to
the `ram` assertions with `ram` still the nil map. -/
def queryMigrate (r : List (String × JsonVal)) : QMResult :=
  match lookupJson r "status" with
  | none => QMResult.fail "" 0 "could not decode status"
  | some (JsonVal.str status) =>
    match status with
    | "completed" => QMResult.ok status 100
    | "failed" => QMResult.ok status 0
    | "active" =>
      match lookupJson r "ram" with
      | none => QMResult.fail status 0 "could not decode ram segment"
      | some (JsonVal.obj fields) => queryMigrateRam status fields
      | some _ => QMResult.fail status 0 "invalid ram type"
    | _ => queryMigrateRam status []
  | some _ => QMResult.crash

/-- `KvmVM.QueryMigrate` including the initial QMP round trip: a transport
error is returned as-is with empty status. -/
def KvmVM.QueryMigrate (reply : GoResult (List (String × JsonVal))) : QMResult :=
  match reply with
  | GoResult.error e => QMResult.fail "" 0 e
  | GoResult.ok r => queryMigrate r

/-! ### Go slice aliasing model for `KVMConfig.Copy`

Go slice values are references into backing arrays, so `res := old` copies
the references, not the elements.  The heap maps an array id to its
contents; a `KVMConfig` slice field holds an array id. -/

/-- Backing store for Go slices: string arrays (for `Append`, `DiskPaths`,
`QemuAppend`) and `qemuOverride` arrays (pairs `(Match, Repl)`). -/
structure Heap where
  strArrs : List (List String)
  ovArrs : List (List (String × String))
deriving DecidableEq

/-- Dereference a string-slice id. -/
def readStrArr (h : Heap) (r : Nat) : List String := h.strArrs.getD r []

/-- Dereference an override-slice id. -/
def readOvArr (h : Heap) (r : Nat) : List (String × String) := h.ovArrs.getD r []

/-- `make` + `copy`: allocate a fresh string array holding `v`. -/
def allocStrArr (h : Heap) (v : List String) : Nat × Heap :=
  (h.strArrs.length, Heap.mk (h.strArrs ++ [v]) h.ovArrs)

/-- In-place update `arr[i] = v` of a string array (Go slice element write). -/
def setStrElem (h : Heap) (r i : Nat) (v : String) : Heap :=
  Heap.mk (h.strArrs.set r ((h.strArrs.getD r []).set i v)) h.ovArrs

/-- In-place update of an override array element. -/
def setOvElem (h : Heap) (r i : Nat) (v : String × String) : Heap :=
  Heap.mk h.strArrs (h.ovArrs.set r ((h.ovArrs.getD r []).set i v))

/-- `KVMConfig` (kvm.go lines 37-142) with slice-valued fields represented
as array ids into the `Heap`; scalar string/count fields are inlined. -/
structure KVMConfig where
  QemuPath : String
  KernelPath : String
  InitrdPath : String
  CdromPath : String
  MigratePath : String
  CPU : String
  SerialPorts : Nat
  VirtioPorts : Nat
  Append : Nat
  DiskPaths : Nat
  QemuAppend : Nat
  QemuOverride : Nat
deriving DecidableEq

/-- `KVMConfig.Copy` (kvm.go lines 176-188): `res := old` copies every
field (slice fields stay aliased), then fresh backing arrays are allocated
for `DiskPaths` and `QemuAppend` only. -/
def KVMConfig.Copy (h : Heap) (old : KVMConfig) : KVMConfig × Heap :=
  let res := old
  let dp := allocStrArr h (readStrArr h old.DiskPaths)
  let qa := allocStrArr dp.2 (readStrArr dp.2 old.QemuAppend)
  ({ res with DiskPaths := dp.1, QemuAppend := qa.1 }, qa.2)

/-- Failing heap for the `Copy` aliasing bug: `Append` in array 0,
`DiskPaths` in array 1, `QemuAppend` in array 2, `QemuOverride` in
override array 0. -/
def c2Heap : Heap := Heap.mk [["x"], ["d"], ["q"]] [[("m", "r")]]

/-- Failing config for the `Copy` aliasing bug. -/
def c2Cfg : KVMConfig :=
  KVMConfig.mk "" "" "" "" "" "" 0 0 0 1 2 0

/-! ### VM state machine operations -/

/-- VM state constant. Modelled from the spec (§3, vm.go is outside src/):
states are distinct bits so that composite checks like `state & RUNNING`
are possible. -/
def VM_BUILDING : Nat := 1

/-- VM state constant (bit), see `VM_BUILDING`. -/
def VM_RUNNING : Nat := 2

/-- VM state constant (bit), see `VM_BUILDING`. -/
def VM_PAUSED : Nat := 4

/-- VM state constant (bit), see `VM_BUILDING`. -/
def VM_QUIT : Nat := 8

/-- VM state constant (bit), see `VM_BUILDING`. -/
def VM_ERROR : Nat := 16

/-- Modelled from the spec: `vmNotRunning` (vm.go, outside src/) builds the
"not running" runtime state-guard error for a VM id. -/
def vmNotRunningMsg (idStr : String) : String :=
  "vm not running: " ++ idStr

/-- `KvmVM.Stop` (kvm.go lines 293-315).  Inputs: the VM's name, id and
state, and the outcome of the QMP `stop` round trip.  Returns the Go error
result and the VM state after the call (`setError` sets `VM_ERROR`,
success sets `VM_PAUSED`).  The `"vince"` joke guard precedes the
`VM_RUNNING` state guard. -/
def KvmVM.Stop (name : String) (id state : Nat) (qmpStop : GoResult Unit) :
    GoResult Unit × Nat :=
  if name = "vince" then (GoResult.error "vince is unstoppable", state)
  else if state ≠ VM_RUNNING then
    (GoResult.error (vmNotRunningMsg (Nat.repr id)), state)
  else
    match qmpStop with
    | GoResult.error e => (GoResult.error e, VM_ERROR)
    | GoResult.ok _ => (GoResult.ok (), VM_PAUSED)

/-- `vmHotplug` (kvm.go lines 149-152). -/
structure vmHotplug where
  Disk : String
  Version : String
deriving DecidableEq

/-- Version switch at the top of `KvmVM.Hotplug` (kvm.go lines 721-730):
maps the requested USB version to `(version, bus)` or rejects it. -/
def hotplugBus (version : String) : Option (String × String) :=
  match version with
  | "" => some ("1.1", "usb-bus.0")
  | "1.1" => some ("1.1", "usb-bus.0")
  | "2.0" => some ("2.0", "ehci.0")
  | _ => none

/-- Id allocation loop of `KvmVM.Hotplug` (kvm.go lines 735-742):
`id` starts at 0 and becomes `k + 1` for every key `k ≥ id`. -/
def hotplugNextId (tbl : List (Nat × vmHotplug)) : Nat :=
  tbl.foldl (fun id p => if p.1 ≥ id then p.1 + 1 else id) 0

/-- `KvmVM.Hotplug` (kvm.go lines 720-762).  The QMP `drive_add` and
`device_add` outcomes are inputs.  On success returns the updated table
together with the id assigned to the new device (observable in the QMP
commands as `hotplug<id>`); on a QMP error the table is unchanged. -/
def KvmVM.Hotplug (tbl : List (Nat × vmHotplug)) (f version : String)
    (qmpDriveAdd qmpUSBAdd : GoResult Unit) :
    GoResult (List (Nat × vmHotplug) × Nat) :=
  match hotplugBus version with
  | none => GoResult.error ("invalid version: `" ++ version ++ "`")
  | some (ver, _bus) =>
    let id := hotplugNextId tbl
    match qmpDriveAdd with
    | GoResult.error e => GoResult.error e
    | GoResult.ok _ =>
      match qmpUSBAdd with
      | GoResult.error e => GoResult.error e
      | GoResult.ok _ => GoResult.ok (tbl ++ [(id, vmHotplug.mk f ver)], id)

/-- `KvmVM.hotplugRemove` (kvm.go lines 788-809): missing id is an error;
`device_del` then `drive_del`; the table entry is removed only when both
QMP calls succeed. -/
def KvmVM.hotplugRemove (tbl : List (Nat × vmHotplug)) (id : Nat)
    (qmpUSBDel qmpDriveDel : GoResult Unit) :
    GoResult (List (Nat × vmHotplug)) :=
  if (tbl.find? (fun p => p.1 == id)).isNone then
    GoResult.error "no such hotplug device"
  else
    match qmpUSBDel with
    | GoResult.error e => GoResult.error e
    | GoResult.ok _ =>
      match qmpDriveDel with
      | GoResult.error e => GoResult.error e
      | GoResult.ok _ => GoResult.ok (tbl.filter (fun p => p.1 != id))

/-- `KvmVM.EjectCD` + `ejectCD` (kvm.go lines 843-861).  Inputs: the VM
state, the current `CdromPath`, and the QMP `BlockdevEject` behaviour as a
function of the device name.  Returns the Go error result, the state after
the call (never touched), and the `CdromPath` after the call (cleared
exactly when the QMP call on `ide0-cd1` succeeds). -/
def KvmVM.EjectCD (state : Nat) (cdrom : String)
    (qmpEject : String → GoResult Unit) : GoResult Unit × Nat × String :=
  if cdrom = "" then (GoResult.error "no cdrom inserted", state, cdrom)
  else
    match qmpEject "ide0-cd1" with
    | GoResult.ok _ => (GoResult.ok (), state, "")
    | GoResult.error e => (GoResult.error e, state, cdrom)

/-! ### igor housekeeping -/

/-- Outcome of the per-reservation housekeeping body (igor/main.go lines
154-192): the reservation is expired and deleted, installed (recording
whether a VLAN-isolation error was logged on the way), skipped, or the
whole invocation dies on `log.Fatal`. -/
inductive HKOutcome where
  | deleted
  | installed (netErrLogged : Bool)
  | skipped
  | fatal (msg : String)
deriving DecidableEq

/-- One iteration of the `housekeeping` loop (igor/main.go lines 160-190)
for a reservation with the given times, PXE-config-file presence, and
collaborator outcomes (`networkSet`, `backend.Install`, `backend.Power`
off/on, each `none` = success).  `log.Error` only logs; `log.Fatal`
aborts the invocation. -/
def housekeepingStep (now startTime endTime : Int) (pxeExists : Bool)
    (netErr installErr : Option String) (autoReboot : Bool)
    (powerOffErr powerOnErr : Option String) : HKOutcome :=
  if endTime < now then HKOutcome.deleted
  else if pxeExists = false ∧ startTime < now then
    match installErr with
    | some e => HKOutcome.fatal ("unable to install: " ++ e)
    | none =>
      if autoReboot then
        match powerOffErr with
        | some e => HKOutcome.fatal ("unable to power off: " ++ e)
        | none =>
          match powerOnErr with
          | some e => HKOutcome.fatal ("unable to power on: " ++ e)
          | none => HKOutcome.installed netErr.isSome
      else HKOutcome.installed netErr.isSome
  else HKOutcome.skipped

/-- Whether some reservation's housekeeping ended in `log.Fatal`. -/
def housekeepingFatal (outcomes : List HKOutcome) : Bool :=
  outcomes.any (fun o => match o with | HKOutcome.fatal _ => true | _ => false)

/-- `main` (igor/main.go lines 198-287) runs `housekeeping()` before the
subcommand dispatch loop, and `log.Fatal` terminates the process, so the
subcommand body runs only when no housekeeping step was fatal. -/
def igorRunsSubcommand (outcomes : List HKOutcome) : Bool :=
  !housekeepingFatal outcomes

/-! ### String helpers for the argument builder

Decimal and hexadecimal rendering of naturals (Go `strconv.Itoa`,
`strconv.FormatUint`, `fmt.Sprintf("%v"/"%x")`), `filepath.Join` for clean
one-component joins, and first/last/indexed character views used to prove
tokens distinct. -/

/-- Decimal digits of `n`, most significant first; `fuel` bounds the
recursion and any `fuel > n` is exact. -/
def natCharsAux : Nat → Nat → List Char
  | 0, _ => []
  | fuel + 1, n =>
    if n < 10 then [Nat.digitChar n]
    else natCharsAux fuel (n / 10) ++ [Nat.digitChar (n % 10)]

/-- Decimal rendering of a natural (Go `%v` / `strconv.Itoa`). -/
def natStr (n : Nat) : String := String.mk (natCharsAux (n + 1) n)

/-- Hexadecimal digits of `n`, most significant first. -/
def hexCharsAux : Nat → Nat → List Char
  | 0, _ => []
  | fuel + 1, n =>
    if n < 16 then [Nat.digitChar n]
    else hexCharsAux fuel (n / 16) ++ [Nat.digitChar (n % 16)]

/-- Lowercase hexadecimal rendering of a natural (Go `%x`). -/
def hexStr (n : Nat) : String := String.mk (hexCharsAux (n + 1) n)

/-- `filepath.Join(dir, name)` for a clean `dir` and a relative one-component
`name` (the only shape the builder uses). -/
def pathJoin (dir name : String) : String :=
  if dir = "" then name else dir ++ "/" ++ name

/-- Modelled from the spec (§6, the routine lives outside src/):
`unescapeString` joins the token vector with single spaces (preserving
quoted tokens verbatim). -/
def unescapeString (args : List String) : String :=
  String.intercalate " " args

/-- Character of `s` at index `k` (`none` past the end). -/
def snth (s : String) (k : Nat) : Option Char := s.data[k]?

/-- Last character of `s` (`none` when empty). -/
def slast (s : String) : Option Char := s.data.getLast?

/-- Boolean string-prefix test on the character lists. -/
def tokStarts (p t : String) : Bool := List.isPrefixOf p.data t.data

/-! ### The argument builder `VMConfig.qemuArgs` (kvm.go lines 879-1060) -/

/-- `DEV_PER_BUS` (kvm.go line 31). -/
def DEV_PER_BUS : Nat := 32

/-- `DEV_PER_VIRTIO` (kvm.go line 32). -/
def DEV_PER_VIRTIO : Nat := 30

/-- One entry of `BaseConfig.Networks` as read by `qemuArgs` (`net.Tap`,
`net.Driver`, `net.MAC`; `Bridge`/`VLAN` are unused by the builder).
Field set modelled from the spec §3 (vm.go is outside src/). -/
structure NetConf where
  Bridge : String
  VLAN : Int
  MAC : String
  Driver : String
  Tap : String
deriving DecidableEq

/-- `VMConfig` = embedded `BaseConfig` + `KVMConfig`, restricted to the
fields `qemuArgs` reads.  The `BaseConfig` fields (`Memory`, `VCPUs`,
`UUID`, `Snapshot`, `Networks`) are modelled from the spec §3; the
`KVMConfig` fields are from kvm.go.  (`QemuOverride` is not read by
`qemuArgs` and is omitted here; the aliasing claims use the heap-based
`KVMConfig` above.) -/
structure VMConfig where
  Memory : Nat
  VCPUs : Nat
  UUID : String
  Snapshot : Bool
  Networks : List NetConf
  QemuPath : String
  KernelPath : String
  InitrdPath : String
  CdromPath : String
  MigratePath : String
  CPU : String
  SerialPorts : Nat
  VirtioPorts : Nat
  Append : List String
  DiskPaths : List String
  QemuAppend : List String
deriving DecidableEq

/-- The PCI-placement trace of the builder: `bridge` is one `addBus` call
(kvm.go lines 988-993), `nic`/`vserial` are devices placed at
`bus=pci.<bus>,addr=0x<addr>`, `ccport` is the unconditional cc
chardev/virtserialport pair, `vport` one extra virtio-serial port. -/
inductive PciEvent where
  | bridge (bus : Nat)
  | nic (tap driver mac : String) (bus addr : Nat)
  | vserial (slot bus addr : Nat)
  | ccport
  | vport (i nr slot : Nat)
deriving DecidableEq

/-- The fixed cc `virtserialport` token (kvm.go line 1014). -/
def ccTok : String :=
  "virtserialport,nr=1,bus=virtio-serial0.0,chardev=charvserialCC,id=charvserialCC,name=cc"

/-- Tokens of one `addBus` call (kvm.go lines 991-992). -/
def addBusToks (bus : Nat) : List String :=
  ["-device", "pci-bridge,id=pci." ++ natStr bus ++ ",chassis_nr=" ++ natStr bus]

/-- Argument tokens of one `PciEvent`, exactly the `fmt.Sprintf` formats of
kvm.go lines 991-1042. -/
def renderPciEvent (vmPath : String) : PciEvent → List String
  | PciEvent.bridge bus => addBusToks bus
  | PciEvent.nic tap driver mac bus addr =>
    ["-netdev", "tap,id=" ++ tap ++ ",script=no,ifname=" ++ tap,
      "-device", "driver=" ++ driver ++ ",netdev=" ++ tap ++ ",mac=" ++ mac ++
        ",bus=pci." ++ natStr bus ++ ",addr=0x" ++ hexStr addr]
  | PciEvent.vserial slot bus addr =>
    ["-device", "virtio-serial-pci,id=virtio-serial" ++ natStr slot ++
      ",bus=pci." ++ natStr bus ++ ",addr=0x" ++ hexStr addr]
  | PciEvent.ccport =>
    ["-chardev", "socket,id=charvserialCC,path=" ++ pathJoin vmPath "cc" ++ ",server,nowait",
      "-device", ccTok]
  | PciEvent.vport i nr slot =>
    ["-chardev", "socket,id=charvserial" ++ natStr i ++ ",path=" ++
        pathJoin vmPath "virtio-serial" ++ natStr i ++ ",server,nowait",
      "-device", "virtserialport,nr=" ++ natStr nr ++ ",bus=virtio-serial" ++ natStr slot ++
        ".0,chardev=charvserial" ++ natStr i ++ ",id=charvserial" ++ natStr i ++
        ",name=virtio-serial" ++ natStr i]

/-- The network loop (kvm.go lines 996-1005): place each NIC at the current
`(bus, addr)`, increment `addr`, and call `addBus` when `addr` reaches
`DEV_PER_BUS`.  Returns the events and the final `(bus, addr)`. -/
def netEvents : List NetConf → Nat → Nat → List PciEvent × Nat × Nat
  | [], bus, addr => ([], bus, addr)
  | n :: ns, bus, addr =>
    if addr + 1 = DEV_PER_BUS then
      let rest := netEvents ns (bus + 1) 1
      (PciEvent.nic n.Tap n.Driver n.MAC bus addr :: PciEvent.bridge (bus + 1) :: rest.1,
        rest.2)
    else
      let rest := netEvents ns bus (addr + 1)
      (PciEvent.nic n.Tap n.Driver n.MAC bus addr :: rest.1, rest.2)

/-- The unconditional cc virtio-serial block (kvm.go lines 1008-1018):
`virtio-serial0` at the current `(bus, addr)`, the cc chardev/port pair,
then `addr++` with possible bus rotation. -/
def ccEvents (bus addr : Nat) : List PciEvent × Nat × Nat :=
  if addr + 1 = DEV_PER_BUS then
    ([PciEvent.vserial 0 bus addr, PciEvent.ccport, PciEvent.bridge (bus + 1)], bus + 1, 1)
  else
    ([PciEvent.vserial 0 bus addr, PciEvent.ccport], bus, addr + 1)

/-- The extra virtio-port loop (kvm.go lines 1020-1043): port number
`nr = i % DEV_PER_VIRTIO + 1`; when `nr = 1` a new `virtio-serial<slot>`
PCI device is placed at the current `(bus, addr)` (with rotation); every
iteration emits one chardev/virtserialport pair.  `remaining` counts the
iterations left, `i` is the loop index. -/
def virtioEvents : Nat → Nat → Nat → Nat → Nat → List PciEvent × Nat × Nat
  | 0, _, _, bus, addr => ([], bus, addr)
  | remaining + 1, i, slot, bus, addr =>
    let nr := i % DEV_PER_VIRTIO + 1
    if nr = 1 then
      if addr + 1 = DEV_PER_BUS then
        let rest := virtioEvents remaining (i + 1) (slot + 1) (bus + 1) 1
        (PciEvent.vserial (slot + 1) bus addr :: PciEvent.bridge (bus + 1) ::
          PciEvent.vport i nr (slot + 1) :: rest.1, rest.2)
      else
        let rest := virtioEvents remaining (i + 1) (slot + 1) bus (addr + 1)
        (PciEvent.vserial (slot + 1) bus addr :: PciEvent.vport i nr (slot + 1) :: rest.1,
          rest.2)
    else
      let rest := virtioEvents remaining (i + 1) slot bus addr
      (PciEvent.vport i nr slot :: rest.1, rest.2)

/-- The full PCI trace of the builder (kvm.go lines 986-1043):
`bus, addr := 0, 0`, one initial `addBus` (giving `pci.1`, `addr = 1`),
the NIC loop, the cc block, then the virtio-port loop with
`virtio_slot = 0`, `i = 0`. -/
def pciEvents (nets : List NetConf) (vports : Nat) : List PciEvent :=
  let n := netEvents nets 1 1
  let c := ccEvents n.2.1 n.2.2
  let v := virtioEvents vports 0 0 c.2.1 c.2.2
  PciEvent.bridge 1 :: (n.1 ++ c.1 ++ v.1)

/-- The token segment produced by kvm.go lines 986-1043: the PCI trace
rendered in emission order. -/
def pciSeg (vmPath : String) (nets : List NetConf) (vports : Nat) : List String :=
  (pciEvents nets vports).flatMap (renderPciEvent vmPath)

/-- `(bus, addr)` pairs at which the trace places a PCI device
(`nic` and `vserial` events; bridges and ports carry no address). -/
def placements (evs : List PciEvent) : List (Nat × Nat) :=
  evs.flatMap (fun ev =>
    match ev with
    | PciEvent.nic _ _ _ b a => [(b, a)]
    | PciEvent.vserial _ b a => [(b, a)]
    | _ => [])

/-- Addresses of the devices the trace places on bus `b`, in emission
order. -/
def addrsOn (b : Nat) (evs : List PciEvent) : List Nat :=
  (placements evs).filterMap (fun p => if p.1 = b then some p.2 else none)

/-- The serial-port loop (kvm.go lines 922-928), from index `i` with
`remaining` iterations left. -/
def serialSegFrom (vmPath : String) : Nat → Nat → List String
  | _, 0 => []
  | i, remaining + 1 =>
    ["-chardev",
      "socket,id=charserial" ++ natStr i ++ ",path=" ++ pathJoin vmPath "serial" ++
        natStr i ++ ",server,nowait",
      "-device", "isa-serial,chardev=charserial" ++ natStr i ++ ",id=serial" ++ natStr i]
    ++ serialSegFrom vmPath (i + 1) remaining

/-- Fixed head of the argument vector (kvm.go lines 882-918), up to and
including the `usb-tablet` device. -/
def headSeg (vm : VMConfig) (id : Nat) (vmPath : String) : List String :=
  ["-enable-kvm", "-name", natStr id, "-m", natStr vm.Memory, "-nographic",
    "-balloon", "none", "-vnc", "unix:" ++ pathJoin vmPath "vnc", "-smp", natStr vm.VCPUs,
    "-qmp", "unix:" ++ pathJoin vmPath "qmp" ++ ",server", "-vga", "std",
    "-rtc", "clock=vm,base=utc", "-device", "virtio-serial", "-usb",
    "-device", "usb-ehci,id=ehci", "-device", "usb-tablet,bus=usb-bus.0"]

/-- Pidfile and keyboard tokens (kvm.go lines 930-934). -/
def pidSeg (vmPath : String) : List String :=
  ["-pidfile", pathJoin vmPath "qemu.pid", "-k", "en-us"]

/-- Optional `-cpu` (kvm.go lines 936-939). -/
def cpuSeg (vm : VMConfig) : List String :=
  if vm.CPU ≠ "" then ["-cpu", vm.CPU] else []

/-- `-net none -S` (kvm.go lines 941-944). -/
def netNoneSeg : List String := ["-net", "none", "-S"]

/-- Optional `-incoming` (kvm.go lines 946-949). -/
def migrateSeg (vm : VMConfig) : List String :=
  if vm.MigratePath ≠ "" then ["-incoming", "exec:cat " ++ vm.MigratePath] else []

/-- One `-drive` per disk (kvm.go lines 951-956). -/
def diskSeg (vm : VMConfig) : List String :=
  vm.DiskPaths.flatMap (fun d => ["-drive", "file=" ++ d ++ ",media=disk"])

/-- Optional `-snapshot` (kvm.go lines 958-960). -/
def snapshotSeg (vm : VMConfig) : List String :=
  if vm.Snapshot then ["-snapshot"] else []

/-- Optional kernel/initrd/append (kvm.go lines 962-973). -/
def kernelSeg (vm : VMConfig) : List String :=
  (if vm.KernelPath ≠ "" then ["-kernel", vm.KernelPath] else [])
  ++ (if vm.InitrdPath ≠ "" then ["-initrd", vm.InitrdPath] else [])
  ++ (if vm.Append ≠ [] then ["-append", unescapeString vm.Append] else [])

/-- Cdrom drive, real or empty (kvm.go lines 975-984). -/
def cdromSeg (vm : VMConfig) : List String :=
  if vm.CdromPath ≠ "" then
    ["-drive", "file=" ++ vm.CdromPath ++ ",media=cdrom", "-boot", "once=d"]
  else ["-drive", "media=cdrom"]

/-- Optional hugepages hook (kvm.go lines 1045-1049). -/
def hugeSeg (hugepagesMountPath : String) : List String :=
  if hugepagesMountPath ≠ "" then ["-mem-info", hugepagesMountPath] else []

/-- Final `-uuid` pair (kvm.go lines 1055-1056). -/
def uuidSeg (vm : VMConfig) : List String := ["-uuid", vm.UUID]

/-- `VMConfig.qemuArgs` (kvm.go lines 879-1060): the full argument vector,
the named segments concatenated in the exact emission order of the source.
`hugepagesMountPath` is the package-level global read at line 1046, passed
explicitly here. -/
def VMConfig.qemuArgs (vm : VMConfig) (id : Nat) (vmPath : String)
    (hugepagesMountPath : String) : List String :=
  headSeg vm id vmPath
  ++ serialSegFrom vmPath 0 vm.SerialPorts
  ++ pidSeg vmPath
  ++ cpuSeg vm
  ++ netNoneSeg
  ++ migrateSeg vm
  ++ diskSeg vm
  ++ snapshotSeg vm
  ++ kernelSeg vm
  ++ cdromSeg vm
  ++ pciSeg vmPath vm.Networks vm.VirtioPorts
  ++ hugeSeg hugepagesMountPath
  ++ vm.QemuAppend
  ++ uuidSeg vm

/-- The tokens whose uniqueness claim A1 asserts; the amended claim
requires the free-form config strings not to collide with them. -/
def specialToks : List String := ["-uuid", "-pidfile", ccTok]

/-- Invariant of a builder segment that transforms PCI state `(bus, addr)`
into `(bus', addr')` while emitting `evs`: the bus only grows, the final
address is in 1..31, device placements stay in range, each bus's addresses
are strictly increasing (so never reused), buses outside `[bus, bus']` are
untouched, the first/last bus respect the entry/exit address bounds, and a
bridge for bus `b+1 ≥ 2` appears exactly when address 31 of bus `b` was
filled (i.e. the running counter reached `DEV_PER_BUS`). -/
structure SegOK (bus addr bus' addr' : Nat) (evs : List PciEvent) : Prop where
  busMono : bus ≤ bus'
  addrLo : 1 ≤ addr'
  addrHi : addr' ≤ 31
  noRot : bus = bus' → addr ≤ addr'
  inRange : ∀ p ∈ placements evs, 1 ≤ p.2 ∧ p.2 ≤ 31
  beforeNil : ∀ b, b < bus → addrsOn b evs = []
  afterNil : ∀ b, bus' < b → addrsOn b evs = []
  firstLo : ∀ a ∈ addrsOn bus evs, addr ≤ a
  lastHi : ∀ a ∈ addrsOn bus' evs, a < addr'
  chain : ∀ b, List.Chain' (· < ·) (addrsOn b evs)
  bridgeIff : ∀ b, 1 ≤ b → (PciEvent.bridge (b + 1) ∈ evs ↔ (b, 31) ∈ placements evs)

/-- The config of scenario 2 of the spec: 33 identical NICs, everything
else default/empty. -/
def cfg33 : VMConfig :=
  VMConfig.mk 512 1 "00000000-0000-0000-0000-000000000001" true
    (List.replicate 33 (NetConf.mk "mega_bridge" 100 "00:11:22:33:44:55" "e1000" "t0"))
    "" "" "" "" "" "" 0 0 [] [] []

/-- A benign concrete config (scenario 1 of the spec) used as witness input
for the token-uniqueness theorem. -/
def cfgW : VMConfig :=
  VMConfig.mk 512 1 "00000000-0000-0000-0000-000000000001" true [] "" "" "" "" "" ""
    0 0 [] [] []

/-- A config whose raw `qemu-append` tokens smuggle a second `-uuid` into
the argument vector. -/
def cfgBad : VMConfig :=
  VMConfig.mk 64 1 "u" false [] "" "" "" "" "" "" 0 0 [] []
    ["-uuid", "11111111-2222-3333-4444-555555555555"]

theorem queryMigrate_of_completed (r : List (String × JsonVal))
    (h : lookupJson r "status" = some (JsonVal.str "completed")) :
    queryMigrate r = QMResult.ok "completed" 100 := by
  unfold queryMigrate
  rw [h]
  rfl

theorem queryMigrate_of_failed (r : List (String × JsonVal))
    (h : lookupJson r "status" = some (JsonVal.str "failed")) :
    queryMigrate r = QMResult.ok "failed" 0 := by
  unfold queryMigrate
  rw [h]
  rfl

theorem queryMigrate_of_active (r fields : List (String × JsonVal))
    (hs : lookupJson r "status" = some (JsonVal.str "active"))
    (hram : lookupJson r "ram" = some (JsonVal.obj fields)) :
    queryMigrate r = queryMigrateRam "active" fields := by
  unfold queryMigrate
  rw [hs, hram]
  rfl

theorem queryMigrateRam_eq (s : String) (fields : List (String × JsonVal)) (t tr : ℚ)
    (ht : lookupJson fields "total" = some (JsonVal.num t))
    (htr : lookupJson fields "transferred" = some (JsonVal.num tr)) :
    queryMigrateRam s fields =
      (if t = 0 then QMResult.fail s 0 "zero total ram!" else QMResult.ok s (tr / t)) := by
  unfold queryMigrateRam
  rw [ht, htr]

section QueryMigrateClaims

/-- C1 counterexample: on the reply `{"status": "completed"}` the code
returns `completed = 100.0`, which is neither `1.0` nor in `[0, 1]`. -/
theorem queryMigrate_completed_is_100 :
    queryMigrate [("status", JsonVal.str "completed")] = QMResult.ok "completed" 100 ∧
    (100 : ℚ) ≠ 1 ∧ ¬((100 : ℚ) ≤ 1) := by
  refine ⟨rfl, by norm_num, by norm_num⟩

/-- C1 (amended): a reply with status `"completed"` yields `(status, 100.0)`
(not 1.0), `"failed"` yields 0, and `"active"` yields `transferred/total`
from the `ram` sub-object — a value in `[0,1]` whenever
`0 ≤ transferred ≤ total` — with `total == 0` reported as an error. -/
theorem queryMigrate_spec (r : List (String × JsonVal))
    (fields : List (String × JsonVal)) (t tr : ℚ)
    (hs : lookupJson r "status" = some (JsonVal.str "active"))
    (hram : lookupJson r "ram" = some (JsonVal.obj fields))
    (ht : lookupJson fields "total" = some (JsonVal.num t))
    (htr : lookupJson fields "transferred" = some (JsonVal.num tr)) :
    (∀ s, lookupJson s "status" = some (JsonVal.str "completed") →
      queryMigrate s = QMResult.ok "completed" 100) ∧
    (∀ s, lookupJson s "status" = some (JsonVal.str "failed") →
      queryMigrate s = QMResult.ok "failed" 0) ∧
    (t = 0 → queryMigrate r = QMResult.fail "active" 0 "zero total ram!") ∧
    (t ≠ 0 → queryMigrate r = QMResult.ok "active" (tr / t)) ∧
    (0 ≤ tr → tr ≤ t → t ≠ 0 → 0 ≤ tr / t ∧ tr / t ≤ 1) := by
  refine ⟨?_, ?_, ?_, ?_, ?_⟩
  · intro s h
    exact queryMigrate_of_completed s h
  · intro s h
    exact queryMigrate_of_failed s h
  · intro h0
    rw [queryMigrate_of_active r fields hs hram]
    rw [queryMigrateRam_eq "active" fields t tr ht htr, if_pos h0]
  · intro h0
    rw [queryMigrate_of_active r fields hs hram]
    rw [queryMigrateRam_eq "active" fields t tr ht htr, if_neg h0]
  · intro h1 h2 h3
    have htpos : 0 < t := lt_of_le_of_ne (le_trans h1 h2) (Ne.symm h3)
    constructor
    · positivity
    · rw [div_le_one htpos]
      exact h2

/-- Witness for the amended C1 theorem at a concrete active reply with
`total = 2`, `transferred = 1`. -/
theorem queryMigrate_spec_witness :
    queryMigrate [("status", JsonVal.str "active"),
      ("ram", JsonVal.obj [("total", JsonVal.num 2), ("transferred", JsonVal.num 1)])] =
      QMResult.ok "active" (1 / 2) ∧ 0 ≤ (1 : ℚ) / 2 ∧ (1 : ℚ) / 2 ≤ 1 := by
  have h := queryMigrate_spec
    [("status", JsonVal.str "active"),
      ("ram", JsonVal.obj [("total", JsonVal.num 2), ("transferred", JsonVal.num 1)])]
    [("total", JsonVal.num 2), ("transferred", JsonVal.num 1)] 2 1
    rfl rfl rfl rfl
  refine ⟨h.2.2.2.1 (by norm_num), h.2.2.2.2 (by norm_num) (by norm_num) (by norm_num)⟩

/-- C10: on a well-formed reply whose status is a string other than
`"completed"`, `"failed"` or `"active"` (e.g. `"setup"` or `"cancelled"`),
`QueryMigrate` falls through the switch with `ram` still nil and panics on
the unguarded `ram["total"].(float64)` assertion: the embedding yields
`crash`, so the function is not total over well-formed replies. -/
theorem queryMigrate_crashes_on_unknown_status :
    queryMigrate [("status", JsonVal.str "setup")] = QMResult.crash ∧
    queryMigrate [("status", JsonVal.str "cancelled")] = QMResult.crash ∧
    KvmVM.QueryMigrate (GoResult.ok [("status", JsonVal.str "setup")]) = QMResult.crash := by
  exact ⟨rfl, rfl, rfl⟩

end QueryMigrateClaims

section CopyClaims

/-- C2: `KVMConfig.Copy` documents itself as a deep copy, but only the
`DiskPaths` and `QemuAppend` backing arrays are duplicated: the `Append`
(kernel command line) and `QemuOverride` slices of the copy alias the
original's backing arrays, so an element write through the original is
observed by the copy.  Evaluated at the failing input `c2Cfg`/`c2Heap`:
writing `"y"` into the original's `Append[0]` changes the copy's `Append`,
and likewise for `QemuOverride`, while `DiskPaths` and `QemuAppend` are
unaffected by such writes. -/
theorem KVMConfig.Copy_aliases_append_and_overrides :
    readStrArr (setStrElem (KVMConfig.Copy c2Heap c2Cfg).2 c2Cfg.Append 0 "y")
        (KVMConfig.Copy c2Heap c2Cfg).1.Append = ["y"] ∧
    readOvArr (setOvElem (KVMConfig.Copy c2Heap c2Cfg).2 c2Cfg.QemuOverride 0 ("a", "b"))
        (KVMConfig.Copy c2Heap c2Cfg).1.QemuOverride = [("a", "b")] ∧
    readStrArr (setStrElem (KVMConfig.Copy c2Heap c2Cfg).2 c2Cfg.DiskPaths 0 "z")
        (KVMConfig.Copy c2Heap c2Cfg).1.DiskPaths = ["d"] ∧
    readStrArr (setStrElem (KVMConfig.Copy c2Heap c2Cfg).2 c2Cfg.QemuAppend 0 "w")
        (KVMConfig.Copy c2Heap c2Cfg).1.QemuAppend = ["q"] ∧
    readStrArr c2Heap c2Cfg.Append = ["x"] := by
  decide

end CopyClaims

section StopClaims

/-- C6 counterexample: the `"vince"` guard precedes the state guard, so a
RUNNING VM named `"vince"` gets the joke error and stays RUNNING even
though the QMP `stop` would succeed — contradicting the claim that every
VM in state RUNNING has `stop` sent and transitions to PAUSED. -/
theorem KvmVM.Stop_vince_counterexample :
    KvmVM.Stop "vince" 3 VM_RUNNING (GoResult.ok ()) =
      (GoResult.error "vince is unstoppable", VM_RUNNING) ∧
    VM_RUNNING ≠ VM_PAUSED := by
  decide

/-- C6 (amended): for every VM whose name is not `"vince"`: in state
RUNNING, a successful QMP `stop` yields success and state PAUSED and a QMP
failure is returned and sets ERROR; in any other state `Stop` fails with
the not-running error and leaves the state unchanged. -/
theorem KvmVM.Stop_spec (name : String) (id state : Nat) (q : GoResult Unit)
    (hv : name ≠ "vince") :
    (state = VM_RUNNING →
      KvmVM.Stop name id state (GoResult.ok ()) = (GoResult.ok (), VM_PAUSED)) ∧
    (state = VM_RUNNING → ∀ e,
      KvmVM.Stop name id state (GoResult.error e) = (GoResult.error e, VM_ERROR)) ∧
    (state ≠ VM_RUNNING →
      KvmVM.Stop name id state q =
        (GoResult.error (vmNotRunningMsg (Nat.repr id)), state)) := by
  refine ⟨?_, ?_, ?_⟩
  · intro hst
    subst hst
    simp [KvmVM.Stop, hv]
  · intro hst e
    subst hst
    simp [KvmVM.Stop, hv]
  · intro hst
    simp [KvmVM.Stop, hv, hst]

/-- Witness for the amended C6 theorem: a VM named `"a"`, id 7, in states
RUNNING and QUIT. -/
theorem KvmVM.Stop_spec_witness :
    KvmVM.Stop "a" 7 VM_RUNNING (GoResult.ok ()) = (GoResult.ok (), VM_PAUSED) ∧
    KvmVM.Stop "a" 7 VM_RUNNING (GoResult.error "qmp gone") =
      (GoResult.error "qmp gone", VM_ERROR) ∧
    KvmVM.Stop "a" 7 VM_QUIT (GoResult.ok ()) =
      (GoResult.error (vmNotRunningMsg (Nat.repr 7)), VM_QUIT) := by
  have h1 := KvmVM.Stop_spec "a" 7 VM_RUNNING (GoResult.ok ()) (by decide)
  have h2 := KvmVM.Stop_spec "a" 7 VM_QUIT (GoResult.ok ()) (by decide)
  exact ⟨h1.1 rfl, h1.2.1 rfl "qmp gone", h2.2.2 (by decide)⟩

end StopClaims

section HotplugClaims

/-- Auxiliary: the foldl of the id-allocation loop only grows and ends
above every processed key. -/
theorem hotplugNextId_foldl_bound (tbl : List (Nat × vmHotplug)) :
    ∀ acc : Nat,
      acc ≤ tbl.foldl (fun id p => if p.1 ≥ id then p.1 + 1 else id) acc ∧
      ∀ p ∈ tbl, p.1 < tbl.foldl (fun id p => if p.1 ≥ id then p.1 + 1 else id) acc := by
  induction tbl with
  | nil => intro acc; exact ⟨le_refl acc, by intro p hp; cases hp⟩
  | cons q rest ih =>
    intro acc
    have hstep : acc ≤ (if q.1 ≥ acc then q.1 + 1 else acc) := by
      split <;> omega
    have hq : q.1 < (if q.1 ≥ acc then q.1 + 1 else acc) := by
      split <;> omega
    have h := ih (if q.1 ≥ acc then q.1 + 1 else acc)
    refine ⟨le_trans hstep h.1, ?_⟩
    intro p hp
    rcases List.mem_cons.mp hp with hpq | hpr
    · subst hpq
      simpa using lt_of_lt_of_le hq h.1
    · simpa using h.2 p hpr

/-- C7 counterexample: hotplug ids are not globally monotonic once
removals are allowed.  `Hotplug` on the empty table assigns id 0; after
`hotplugRemove 0` empties the table, a second `Hotplug` assigns id 0
again, which is not strictly greater than the earlier id 0. -/
theorem KvmVM.Hotplug_id_reuse_counterexample :
    KvmVM.Hotplug [] "/a.img" "1.1" (GoResult.ok ()) (GoResult.ok ()) =
      GoResult.ok ([(0, vmHotplug.mk "/a.img" "1.1")], 0) ∧
    KvmVM.hotplugRemove [(0, vmHotplug.mk "/a.img" "1.1")] 0
        (GoResult.ok ()) (GoResult.ok ()) = GoResult.ok [] ∧
    KvmVM.Hotplug [] "/b.img" "1.1" (GoResult.ok ()) (GoResult.ok ()) =
      GoResult.ok ([(0, vmHotplug.mk "/b.img" "1.1")], 0) ∧
    ¬(0 : Nat) < 0 := by
  decide

/-- C7 (amended): every id assigned by a successful `Hotplug` is strictly
greater than every id present in the hotplug table at the time of the call
(so ids are monotonically increasing as long as the maximal entry is not
removed), and the new entry is appended with exactly that id. -/
theorem KvmVM.Hotplug_fresh_id (tbl tbl' : List (Nat × vmHotplug))
    (f version : String) (q1 q2 : GoResult Unit) (id : Nat)
    (h : KvmVM.Hotplug tbl f version q1 q2 = GoResult.ok (tbl', id)) :
    (∀ p ∈ tbl, p.1 < id) ∧
    ∃ ver bus, hotplugBus version = some (ver, bus) ∧
      tbl' = tbl ++ [(id, vmHotplug.mk f ver)] := by
  unfold KvmVM.Hotplug at h
  rcases hb : hotplugBus version with _ | ⟨ver, bus⟩ <;> rw [hb] at h
  · cases h
  · cases q1 with
    | error e => cases h
    | ok _ =>
      cases q2 with
      | error e => cases h
      | ok _ =>
        simp only [GoResult.ok.injEq, Prod.mk.injEq] at h
        obtain ⟨htbl, hid⟩ := h
        subst hid
        exact ⟨(hotplugNextId_foldl_bound tbl 0).2, ver, bus, by simp [hb], htbl.symm⟩

/-- Witness for the amended C7 theorem: hotplug onto a table already
holding ids 2 and 5 assigns id 6. -/
theorem KvmVM.Hotplug_fresh_id_witness :
    (∀ p ∈ [(2, vmHotplug.mk "/a.img" "1.1"), (5, vmHotplug.mk "/b.img" "2.0")], p.1 < 6) ∧
    ∃ ver bus, hotplugBus "2.0" = some (ver, bus) ∧
      ([(2, vmHotplug.mk "/a.img" "1.1"), (5, vmHotplug.mk "/b.img" "2.0"),
        (6, vmHotplug.mk "/c.img" "2.0")] : List (Nat × vmHotplug)) =
      [(2, vmHotplug.mk "/a.img" "1.1"), (5, vmHotplug.mk "/b.img" "2.0")] ++
        [(6, vmHotplug.mk "/c.img" ver)] :=
  KvmVM.Hotplug_fresh_id
    [(2, vmHotplug.mk "/a.img" "1.1"), (5, vmHotplug.mk "/b.img" "2.0")]
    [(2, vmHotplug.mk "/a.img" "1.1"), (5, vmHotplug.mk "/b.img" "2.0"),
      (6, vmHotplug.mk "/c.img" "2.0")]
    "/c.img" "2.0" (GoResult.ok ()) (GoResult.ok ()) 6 (by decide)

end HotplugClaims

section EjectClaims

/-- C8: `EjectCD` with no cdrom fails and changes nothing; with a cdrom it
issues the QMP eject on `ide0-cd1` and clears `CdromPath` exactly when the
QMP call succeeds, leaving it unchanged on failure.  The VM state is never
touched. -/
theorem KvmVM.EjectCD_spec (state : Nat) (cdrom : String)
    (q : String → GoResult Unit) :
    (cdrom = "" →
      KvmVM.EjectCD state cdrom q = (GoResult.error "no cdrom inserted", state, cdrom)) ∧
    (cdrom ≠ "" → q "ide0-cd1" = GoResult.ok () →
      KvmVM.EjectCD state cdrom q = (GoResult.ok (), state, "")) ∧
    (cdrom ≠ "" → ∀ e, q "ide0-cd1" = GoResult.error e →
      KvmVM.EjectCD state cdrom q = (GoResult.error e, state, cdrom)) := by
  unfold KvmVM.EjectCD
  refine ⟨?_, ?_, ?_⟩
  · intro hc
    rw [if_pos hc]
  · intro hc hq
    rw [if_neg hc, hq]
  · intro hc e hq
    rw [if_neg hc, hq]

/-- Witness for the C8 theorem at concrete inputs: empty cdrom with any
QMP, and a real cdrom with succeeding and failing QMP. -/
theorem KvmVM.EjectCD_spec_witness :
    KvmVM.EjectCD 2 "" (fun _ => GoResult.ok ()) =
      (GoResult.error "no cdrom inserted", 2, "") ∧
    KvmVM.EjectCD 2 "/a.iso" (fun _ => GoResult.ok ()) = (GoResult.ok (), 2, "") ∧
    KvmVM.EjectCD 2 "/a.iso" (fun _ => GoResult.error "qmp dead") =
      (GoResult.error "qmp dead", 2, "/a.iso") := by
  have h1 := KvmVM.EjectCD_spec 2 "" (fun _ => GoResult.ok ())
  have h2 := KvmVM.EjectCD_spec 2 "/a.iso" (fun _ => GoResult.ok ())
  have h3 := KvmVM.EjectCD_spec 2 "/a.iso" (fun _ => GoResult.error "qmp dead")
  exact ⟨h1.1 rfl, h2.2.1 (by decide) rfl, h3.2.2 (by decide) "qmp dead" rfl⟩

end EjectClaims

section HousekeepingClaims

/-- C9: for a reservation whose start time has passed and whose PXE config
file is absent (and which has not expired): a `networkSet` failure is
logged and the housekeeper proceeds to install (never fatal); an
`Install` failure is fatal; with `AutoReboot`, a power-off or power-on
failure is fatal; and a fatal step prevents the subcommand from running
(housekeeping runs before dispatch and `log.Fatal` aborts). -/
theorem housekeepingStep_error_handling (now s e : Int) (netE instE offE onE : String)
    (ar : Bool) (onAny : Option String)
    (h1 : ¬e < now) (h2 : s < now) :
    (housekeepingStep now s e false (some netE) none ar none none =
      HKOutcome.installed true) ∧
    (∀ msg, housekeepingStep now s e false (some netE) none ar none none ≠
      HKOutcome.fatal msg) ∧
    (∀ net off on2,
      housekeepingStep now s e false net (some instE) ar off on2 =
        HKOutcome.fatal ("unable to install: " ++ instE)) ∧
    (housekeepingStep now s e false none none true (some offE) onAny =
      HKOutcome.fatal ("unable to power off: " ++ offE)) ∧
    (housekeepingStep now s e false none none true none (some onE) =
      HKOutcome.fatal ("unable to power on: " ++ onE)) ∧
    (∀ msg rest, igorRunsSubcommand (HKOutcome.fatal msg :: rest) = false) := by
  have hcond : (false = false ∧ s < now) := ⟨rfl, h2⟩
  refine ⟨?_, ?_, ?_, ?_, ?_, ?_⟩
  · unfold housekeepingStep
    rw [if_neg h1, if_pos hcond]
    cases ar <;> rfl
  · intro msg
    unfold housekeepingStep
    rw [if_neg h1, if_pos hcond]
    cases ar <;> simp
  · intro net off on2
    unfold housekeepingStep
    rw [if_neg h1, if_pos hcond]
  · unfold housekeepingStep
    rw [if_neg h1, if_pos hcond]
    rfl
  · unfold housekeepingStep
    rw [if_neg h1, if_pos hcond]
    rfl
  · intro msg rest
    rfl

/-- Witness for the C9 theorem at `now = 10`, `start = 5`, `end = 20`. -/
theorem housekeepingStep_error_handling_witness :
    housekeepingStep 10 5 20 false (some "switch down") none true none none =
      HKOutcome.installed true ∧
    housekeepingStep 10 5 20 false none (some "no kernel") true none none =
      HKOutcome.fatal ("unable to install: " ++ "no kernel") ∧
    housekeepingStep 10 5 20 false none none true (some "powerman off") none =
      HKOutcome.fatal ("unable to power off: " ++ "powerman off") ∧
    housekeepingStep 10 5 20 false none none true none (some "powerman on") =
      HKOutcome.fatal ("unable to power on: " ++ "powerman on") ∧
    igorRunsSubcommand [HKOutcome.fatal "x"] = false := by
  have h := housekeepingStep_error_handling 10 5 20 "switch down" "no kernel"
    "powerman off" "powerman on" true none (by decide) (by decide)
  exact ⟨h.1, h.2.2.1 none none none, h.2.2.2.1, h.2.2.2.2.1, h.2.2.2.2.2 "x" []⟩

end HousekeepingClaims

section PciInvariant

theorem placements_append (e1 e2 : List PciEvent) :
    placements (e1 ++ e2) = placements e1 ++ placements e2 := by
  unfold placements
  rw [List.flatMap_append]

theorem addrsOn_append (b : Nat) (e1 e2 : List PciEvent) :
    addrsOn b (e1 ++ e2) = addrsOn b e1 ++ addrsOn b e2 := by
  unfold addrsOn
  rw [placements_append, List.filterMap_append]

theorem mem_addrsOn (a b : Nat) (evs : List PciEvent) :
    a ∈ addrsOn b evs ↔ (b, a) ∈ placements evs := by
  unfold addrsOn
  rw [List.mem_filterMap]
  constructor
  · rintro ⟨⟨pb, pa⟩, hp, hf⟩
    by_cases hb : pb = b
    · subst hb
      simp at hf
      subst hf
      exact hp
    · simp [hb] at hf
  · intro hp
    exact ⟨(b, a), hp, by simp⟩

theorem addrsOn_of_placements (b : Nat) (evs : List PciEvent) (ps : List (Nat × Nat))
    (hp : placements evs = ps) :
    addrsOn b evs = ps.filterMap (fun p => if p.1 = b then some p.2 else none) := by
  unfold addrsOn
  rw [hp]

theorem SegOK.append {b1 a1 b2 a2 b3 a3 : Nat} {e1 e2 : List PciEvent}
    (h1 : SegOK b1 a1 b2 a2 e1) (h2 : SegOK b2 a2 b3 a3 e2) :
    SegOK b1 a1 b3 a3 (e1 ++ e2) := by
  refine ⟨le_trans h1.busMono h2.busMono, h2.addrLo, h2.addrHi, ?_, ?_, ?_, ?_, ?_, ?_, ?_, ?_⟩
  · intro hb
    have m1 := h1.busMono
    have m2 := h2.busMono
    have e12 : b1 = b2 := by omega
    have e23 : b2 = b3 := by omega
    have r1 := h1.noRot e12
    have r2 := h2.noRot e23
    omega
  · intro p hp
    rw [placements_append, List.mem_append] at hp
    rcases hp with h | h
    · exact h1.inRange p h
    · exact h2.inRange p h
  · intro b hb
    rw [addrsOn_append, h1.beforeNil b hb,
      h2.beforeNil b (lt_of_lt_of_le hb h1.busMono), List.nil_append]
  · intro b hb
    rw [addrsOn_append, h1.afterNil b (lt_of_le_of_lt h2.busMono hb),
      h2.afterNil b hb, List.append_nil]
  · intro a ha
    rw [addrsOn_append, List.mem_append] at ha
    rcases ha with h | h
    · exact h1.firstLo a h
    · rcases lt_or_eq_of_le h1.busMono with hlt | heq
      · rw [h2.beforeNil b1 hlt] at h
        cases h
      · have h' : a ∈ addrsOn b2 e2 := by rw [← heq]; exact h
        have hf := h2.firstLo a h'
        have hr := h1.noRot heq
        omega
  · intro a ha
    rw [addrsOn_append, List.mem_append] at ha
    rcases ha with h | h
    · rcases lt_or_eq_of_le h2.busMono with hlt | heq
      · rw [h1.afterNil b3 hlt] at h
        cases h
      · have h' : a ∈ addrsOn b2 e1 := by rw [heq]; exact h
        have hl := h1.lastHi a h'
        have hr := h2.noRot heq
        omega
    · exact h2.lastHi a h
  · intro b
    rw [addrsOn_append]
    rcases lt_trichotomy b b2 with hlt | heq | hgt
    · rw [h2.beforeNil b hlt, List.append_nil]
      exact h1.chain b
    · subst heq
      rw [List.chain'_append]
      refine ⟨h1.chain b, h2.chain b, ?_⟩
      intro x hx y hy
      have hxm := List.mem_of_mem_getLast? hx
      have hym := List.mem_of_mem_head? hy
      have hl := h1.lastHi x hxm
      have hf := h2.firstLo y hym
      omega
    · rw [h1.afterNil b hgt, List.nil_append]
      exact h2.chain b
  · intro b hb
    rw [List.mem_append, placements_append, List.mem_append]
    exact or_congr (h1.bridgeIff b hb) (h2.bridgeIff b hb)

theorem segOK_noop (evs : List PciEvent) (bus addr : Nat)
    (hp : placements evs = []) (hnb : ∀ k, PciEvent.bridge k ∉ evs)
    (h1 : 1 ≤ addr) (h2 : addr ≤ 31) : SegOK bus addr bus addr evs := by
  have haddrs : ∀ b, addrsOn b evs = [] := by
    intro b
    rw [addrsOn_of_placements b evs [] hp]
    rfl
  refine ⟨le_refl _, h1, h2, fun _ => le_refl _, ?_, ?_, ?_, ?_, ?_, ?_, ?_⟩
  · intro p hp'
    rw [hp] at hp'
    cases hp'
  · intro b _
    exact haddrs b
  · intro b _
    exact haddrs b
  · intro a ha
    rw [haddrs] at ha
    cases ha
  · intro a ha
    rw [haddrs] at ha
    cases ha
  · intro b
    rw [haddrs]
    exact List.chain'_nil
  · intro b _
    constructor
    · intro hmem
      exact absurd hmem (hnb (b + 1))
    · intro hmem
      rw [hp] at hmem
      cases hmem

theorem segOK_dev_norot (evs : List PciEvent) (bus addr : Nat)
    (hp : placements evs = [(bus, addr)]) (hnb : ∀ k, PciEvent.bridge k ∉ evs)
    (h1 : 1 ≤ addr) (h2 : addr + 1 ≤ 31) :
    SegOK bus addr bus (addr + 1) evs := by
  have haddrs : ∀ b, addrsOn b evs = if bus = b then [addr] else [] := by
    intro b
    rw [addrsOn_of_placements b evs [(bus, addr)] hp]
    by_cases hb : bus = b <;> simp [hb]
  refine ⟨le_refl _, by omega, h2, fun _ => by omega, ?_, ?_, ?_, ?_, ?_, ?_, ?_⟩
  · intro p hp'
    rw [hp] at hp'
    rcases List.mem_singleton.mp hp' with rfl
    exact ⟨h1, by omega⟩
  · intro b hb
    rw [haddrs, if_neg (by omega)]
  · intro b hb
    rw [haddrs, if_neg (by omega)]
  · intro a ha
    rw [haddrs, if_pos rfl] at ha
    rcases List.mem_singleton.mp ha with rfl
    exact le_refl _
  · intro a ha
    rw [haddrs, if_pos rfl] at ha
    rcases List.mem_singleton.mp ha with rfl
    omega
  · intro b
    rw [haddrs]
    split
    · exact List.chain'_singleton addr
    · exact List.chain'_nil
  · intro b _
    constructor
    · intro hmem
      exact absurd hmem (hnb (b + 1))
    · intro hmem
      rw [hp] at hmem
      rcases List.mem_singleton.mp hmem with heq
      have : addr = 31 := by
        have := congrArg Prod.snd heq
        simpa using this.symm
      omega

theorem segOK_dev_rot (evs : List PciEvent) (bus : Nat)
    (hp : placements evs = [(bus, 31)])
    (hbr : ∀ k, PciEvent.bridge k ∈ evs ↔ k = bus + 1) :
    SegOK bus 31 (bus + 1) 1 evs := by
  have haddrs : ∀ b, addrsOn b evs = if bus = b then [31] else [] := by
    intro b
    rw [addrsOn_of_placements b evs [(bus, 31)] hp]
    by_cases hb : bus = b <;> simp [hb]
  refine ⟨by omega, le_refl _, by omega, by omega, ?_, ?_, ?_, ?_, ?_, ?_, ?_⟩
  · intro p hp'
    rw [hp] at hp'
    rcases List.mem_singleton.mp hp' with rfl
    exact ⟨by omega, le_refl _⟩
  · intro b hb
    rw [haddrs, if_neg (by omega)]
  · intro b hb
    rw [haddrs, if_neg (by omega)]
  · intro a ha
    rw [haddrs, if_pos rfl] at ha
    rcases List.mem_singleton.mp ha with rfl
    exact le_refl _
  · intro a ha
    rw [haddrs, if_neg (by omega)] at ha
    cases ha
  · intro b
    rw [haddrs]
    split
    · exact List.chain'_singleton 31
    · exact List.chain'_nil
  · intro b _
    rw [hbr (b + 1), hp]
    constructor
    · intro h
      have hb : b = bus := by omega
      subst hb
      exact List.mem_singleton.mpr rfl
    · intro h
      rcases List.mem_singleton.mp h with heq
      have : b = bus := by
        have := congrArg Prod.fst heq
        simpa using this
      omega

theorem netEvents_ok (ns : List NetConf) : ∀ bus addr : Nat, 1 ≤ addr → addr ≤ 31 →
    SegOK bus addr (netEvents ns bus addr).2.1 (netEvents ns bus addr).2.2
      (netEvents ns bus addr).1 := by
  induction ns with
  | nil =>
    intro bus addr h1 h2
    simp only [netEvents]
    exact segOK_noop [] bus addr rfl (by intro k h; cases h) h1 h2
  | cons n ns ih =>
    intro bus addr h1 h2
    by_cases hrot : addr + 1 = DEV_PER_BUS
    · have haddr : addr = 31 := by
        unfold DEV_PER_BUS at hrot
        omega
      have heq : netEvents (n :: ns) bus addr =
          (PciEvent.nic n.Tap n.Driver n.MAC bus addr :: PciEvent.bridge (bus + 1) ::
            (netEvents ns (bus + 1) 1).1, (netEvents ns (bus + 1) 1).2) := by
        simp only [netEvents, if_pos hrot]
      rw [heq]
      have hstep : SegOK bus addr (bus + 1) 1
          [PciEvent.nic n.Tap n.Driver n.MAC bus addr, PciEvent.bridge (bus + 1)] := by
        rw [haddr]
        apply segOK_dev_rot
        · simp [placements]
        · intro k
          simp
      exact SegOK.append hstep (ih (bus + 1) 1 (le_refl 1) (by omega))
    · have h31 : addr + 1 ≤ 31 := by
        unfold DEV_PER_BUS at hrot
        omega
      have heq : netEvents (n :: ns) bus addr =
          (PciEvent.nic n.Tap n.Driver n.MAC bus addr ::
            (netEvents ns bus (addr + 1)).1, (netEvents ns bus (addr + 1)).2) := by
        simp only [netEvents, if_neg hrot]
      rw [heq]
      have hstep : SegOK bus addr bus (addr + 1)
          [PciEvent.nic n.Tap n.Driver n.MAC bus addr] := by
        apply segOK_dev_norot
        · simp [placements]
        · intro k h
          simp at h
        · exact h1
        · exact h31
      exact SegOK.append hstep (ih bus (addr + 1) (by omega) h31)

theorem ccEvents_ok (bus addr : Nat) (h1 : 1 ≤ addr) (h2 : addr ≤ 31) :
    SegOK bus addr (ccEvents bus addr).2.1 (ccEvents bus addr).2.2 (ccEvents bus addr).1 := by
  by_cases hrot : addr + 1 = DEV_PER_BUS
  · have haddr : addr = 31 := by
      unfold DEV_PER_BUS at hrot
      omega
    have heq : ccEvents bus addr =
        ([PciEvent.vserial 0 bus addr, PciEvent.ccport, PciEvent.bridge (bus + 1)],
          bus + 1, 1) := by
      simp only [ccEvents, if_pos hrot]
    rw [heq, haddr]
    apply segOK_dev_rot
    · simp [placements]
    · intro k
      simp
  · have h31 : addr + 1 ≤ 31 := by
      unfold DEV_PER_BUS at hrot
      omega
    have heq : ccEvents bus addr =
        ([PciEvent.vserial 0 bus addr, PciEvent.ccport], bus, addr + 1) := by
      simp only [ccEvents, if_neg hrot]
    rw [heq]
    apply segOK_dev_norot
    · simp [placements]
    · intro k h
      simp at h
    · exact h1
    · exact h31

theorem virtioEvents_ok (remaining : Nat) : ∀ i slot bus addr : Nat, 1 ≤ addr → addr ≤ 31 →
    SegOK bus addr (virtioEvents remaining i slot bus addr).2.1
      (virtioEvents remaining i slot bus addr).2.2
      (virtioEvents remaining i slot bus addr).1 := by
  induction remaining with
  | zero =>
    intro i slot bus addr h1 h2
    simp only [virtioEvents]
    exact segOK_noop [] bus addr rfl (by intro k h; cases h) h1 h2
  | succ r ih =>
    intro i slot bus addr h1 h2
    by_cases hnr : i % DEV_PER_VIRTIO + 1 = 1
    · by_cases hrot : addr + 1 = DEV_PER_BUS
      · have haddr : addr = 31 := by
          unfold DEV_PER_BUS at hrot
          omega
        have heq : virtioEvents (r + 1) i slot bus addr =
            (PciEvent.vserial (slot + 1) bus addr :: PciEvent.bridge (bus + 1) ::
              PciEvent.vport i (i % DEV_PER_VIRTIO + 1) (slot + 1) ::
                (virtioEvents r (i + 1) (slot + 1) (bus + 1) 1).1,
              (virtioEvents r (i + 1) (slot + 1) (bus + 1) 1).2) := by
          simp only [virtioEvents, if_pos hnr, if_pos hrot]
        rw [heq]
        have hstep : SegOK bus addr (bus + 1) 1
            [PciEvent.vserial (slot + 1) bus addr, PciEvent.bridge (bus + 1)] := by
          rw [haddr]
          apply segOK_dev_rot
          · simp [placements]
          · intro k
            simp
        have hmid : SegOK (bus + 1) 1 (bus + 1) 1
            [PciEvent.vport i (i % DEV_PER_VIRTIO + 1) (slot + 1)] := by
          apply segOK_noop
          · simp [placements]
          · intro k h
            simp at h
          · exact le_refl 1
          · omega
        exact SegOK.append hstep
          (SegOK.append hmid (ih (i + 1) (slot + 1) (bus + 1) 1 (le_refl 1) (by omega)))
      · have h31 : addr + 1 ≤ 31 := by
          unfold DEV_PER_BUS at hrot
          omega
        have heq : virtioEvents (r + 1) i slot bus addr =
            (PciEvent.vserial (slot + 1) bus addr ::
              PciEvent.vport i (i % DEV_PER_VIRTIO + 1) (slot + 1) ::
                (virtioEvents r (i + 1) (slot + 1) bus (addr + 1)).1,
              (virtioEvents r (i + 1) (slot + 1) bus (addr + 1)).2) := by
          simp only [virtioEvents, if_pos hnr, if_neg hrot]
        rw [heq]
        have hstep : SegOK bus addr bus (addr + 1)
            [PciEvent.vserial (slot + 1) bus addr,
              PciEvent.vport i (i % DEV_PER_VIRTIO + 1) (slot + 1)] := by
          apply segOK_dev_norot
          · simp [placements]
          · intro k h
            simp at h
          · exact h1
          · exact h31
        exact SegOK.append hstep (ih (i + 1) (slot + 1) bus (addr + 1) (by omega) h31)
    · have heq : virtioEvents (r + 1) i slot bus addr =
          (PciEvent.vport i (i % DEV_PER_VIRTIO + 1) slot ::
            (virtioEvents r (i + 1) slot bus addr).1,
            (virtioEvents r (i + 1) slot bus addr).2) := by
        simp only [virtioEvents, if_neg hnr]
      rw [heq]
      have hstep : SegOK bus addr bus addr
          [PciEvent.vport i (i % DEV_PER_VIRTIO + 1) slot] := by
        apply segOK_noop
        · simp [placements]
        · intro k h
          simp at h
        · exact h1
        · exact h2
      exact SegOK.append hstep (ih (i + 1) slot bus addr h1 h2)

theorem placements_bridge_cons (k : Nat) (evs : List PciEvent) :
    placements (PciEvent.bridge k :: evs) = placements evs := by
  simp [placements]

theorem addrsOn_bridge_cons (b k : Nat) (evs : List PciEvent) :
    addrsOn b (PciEvent.bridge k :: evs) = addrsOn b evs := by
  unfold addrsOn
  rw [placements_bridge_cons]

theorem chain_length_le (l : List Nat) (hc : List.Chain' (· < ·) l)
    (hm : ∀ x ∈ l, 1 ≤ x ∧ x ≤ 31) : l.length ≤ 31 := by
  have hp : l.Pairwise (· < ·) := List.chain'_iff_pairwise.mp hc
  have hnd : l.Nodup := hp.imp Nat.ne_of_lt
  have hsub : l.toFinset ⊆ Finset.Icc 1 31 := by
    intro x hx
    rcases hm x (List.mem_toFinset.mp hx) with ⟨ha, hb⟩
    exact Finset.mem_Icc.mpr ⟨ha, hb⟩
  have hcard : l.toFinset.card = l.length := List.toFinset_card_of_nodup hnd
  have hle : l.toFinset.card ≤ (Finset.Icc 1 31).card := Finset.card_le_card hsub
  have hIcc : (Finset.Icc 1 31).card = 31 := by simp
  omega

theorem pciEvents_tail_segOK (nets : List NetConf) (vports : Nat) :
    ∃ bus' addr' rest, pciEvents nets vports = PciEvent.bridge 1 :: rest ∧
      SegOK 1 1 bus' addr' rest := by
  have hn := netEvents_ok nets 1 1 (le_refl 1) (by omega)
  have hc := ccEvents_ok (netEvents nets 1 1).2.1 (netEvents nets 1 1).2.2 hn.addrLo hn.addrHi
  have hv := virtioEvents_ok vports 0 0
    (ccEvents (netEvents nets 1 1).2.1 (netEvents nets 1 1).2.2).2.1
    (ccEvents (netEvents nets 1 1).2.1 (netEvents nets 1 1).2.2).2.2 hc.addrLo hc.addrHi
  exact ⟨_, _, _, rfl, SegOK.append (SegOK.append hn hc) hv⟩

/-- C4: for every configuration (any NIC list and virtio-port count), the
builder's PCI trace `pciEvents` — whose rendering is by definition the PCI
token segment `pciSeg` of `qemuArgs` (first conjunct, definitional) —
places every device at an address in 1..31 (0 is reserved), puts at most
31 device tokens on any single `pci.<b>` bus, emits the `pci.1` bridge up
front, and emits a bridge for bus `b+1 ≥ 2` exactly when address 31 of bus
`b` was filled, i.e. exactly when the running address counter reached
`DEV_PER_BUS = 32`. -/
theorem qemuArgs_pci_bus_invariant (vmPath : String) (nets : List NetConf) (vports : Nat) :
    pciSeg vmPath nets vports = (pciEvents nets vports).flatMap (renderPciEvent vmPath) ∧
    (∀ p ∈ placements (pciEvents nets vports), 1 ≤ p.2 ∧ p.2 ≤ 31) ∧
    (∀ b, (addrsOn b (pciEvents nets vports)).length ≤ 31) ∧
    PciEvent.bridge 1 ∈ pciEvents nets vports ∧
    (∀ b, 1 ≤ b →
      (PciEvent.bridge (b + 1) ∈ pciEvents nets vports ↔
        (b, 31) ∈ placements (pciEvents nets vports))) := by
  obtain ⟨bus', addr', rest, hevs, hall⟩ := pciEvents_tail_segOK nets vports
  have hplac : placements (pciEvents nets vports) = placements rest := by
    rw [hevs, placements_bridge_cons]
  have haddr : ∀ b, addrsOn b (pciEvents nets vports) = addrsOn b rest := by
    intro b
    rw [hevs, addrsOn_bridge_cons]
  refine ⟨rfl, ?_, ?_, ?_, ?_⟩
  · intro p hp
    rw [hplac] at hp
    exact hall.inRange p hp
  · intro b
    rw [haddr b]
    apply chain_length_le _ (hall.chain b)
    intro x hx
    exact hall.inRange (b, x) ((mem_addrsOn x b rest).mp hx)
  · rw [hevs]
    exact List.mem_cons_self _ _
  · intro b hb
    rw [hplac, hevs, List.mem_cons]
    constructor
    · rintro (heq | hmem)
      · exfalso
        injection heq with h'
        omega
      · exact (hall.bridgeIff b hb).mp hmem
    · intro hmem
      exact Or.inr ((hall.bridgeIff b hb).mpr hmem)

end PciInvariant

section StringKit

theorem ne_of_snth (s t : String) (k : Nat) (h : snth s k ≠ snth t k) : s ≠ t := by
  intro he
  exact h (by rw [he])

theorem ne_of_slast (s t : String) (h : slast s ≠ slast t) : s ≠ t := by
  intro he
  exact h (by rw [he])

theorem snth_append_left (s t : String) (k : Nat) (c : Char) (h : snth s k = some c) :
    snth (s ++ t) k = some c := by
  unfold snth at h ⊢
  have hk : k < s.data.length := by
    by_contra hc
    push_neg at hc
    rw [List.getElem?_eq_none hc] at h
    cases h
  rw [String.data_append, List.getElem?_append_left hk]
  exact h

theorem slast_append_right (s t : String) (c : Char) (h : slast t = some c) :
    slast (s ++ t) = some c := by
  unfold slast at h ⊢
  have hne : t.data ≠ [] := by
    intro he
    rw [he] at h
    cases h
  rw [String.data_append, List.getLast?_append_of_ne_nil s.data hne]
  exact h

theorem natCharsAux_getLast (fuel n : Nat) :
    (natCharsAux (fuel + 1) n).getLast? = some (Nat.digitChar (n % 10)) := by
  simp only [natCharsAux]
  split
  · rename_i h
    rw [Nat.mod_eq_of_lt h]
    rfl
  · rw [List.getLast?_append_of_ne_nil _ (by simp)]
    rfl

theorem natStr_last (n : Nat) : slast (natStr n) = some (Nat.digitChar (n % 10)) := by
  unfold slast natStr
  exact natCharsAux_getLast n n

theorem natCharsAux_head (fuel : Nat) : ∀ n, n < fuel →
    ∃ d, d < 10 ∧ (natCharsAux fuel n).head? = some (Nat.digitChar d) := by
  induction fuel with
  | zero =>
    intro n h
    omega
  | succ f ih =>
    intro n hn
    simp only [natCharsAux]
    split
    · rename_i h
      exact ⟨n, h, rfl⟩
    · rename_i h
      have h10 : 10 ≤ n := by omega
      have hlt : n / 10 < n := Nat.div_lt_self (by omega) (by omega)
      obtain ⟨d, hd, hh⟩ := ih (n / 10) (by omega)
      refine ⟨d, hd, ?_⟩
      cases hl : natCharsAux f (n / 10) with
      | nil =>
        rw [hl] at hh
        cases hh
      | cons a as =>
        rw [hl] at hh
        simp at hh
        simp [hh]

theorem natStr_head (n : Nat) :
    ∃ d, d < 10 ∧ snth (natStr n) 0 = some (Nat.digitChar d) := by
  obtain ⟨d, hd, hh⟩ := natCharsAux_head (n + 1) n (by omega)
  refine ⟨d, hd, ?_⟩
  unfold snth natStr
  cases hl : natCharsAux (n + 1) n with
  | nil =>
    rw [hl] at hh
    cases hh
  | cons a as =>
    rw [hl] at hh
    simp at hh
    simp [hh]

theorem digit_facts : ∀ d, d < 10 →
    Nat.digitChar d ≠ '-' ∧ Nat.digitChar d ≠ 'v' ∧ Nat.digitChar d ≠ 'c' := by
  decide

theorem head_notin_specials (s : String) (c : Char) (hc : snth s 0 = some c)
    (h1 : c ≠ '-') (h2 : c ≠ 'v') : s ∉ specialToks := by
  intro hmem
  simp only [specialToks, List.mem_cons, List.not_mem_nil, or_false] at hmem
  rcases hmem with rfl | rfl | rfl
  · rw [show snth "-uuid" 0 = some '-' from rfl] at hc
    injection hc with h
    exact h1 h.symm
  · rw [show snth "-pidfile" 0 = some '-' from rfl] at hc
    injection hc with h
    exact h1 h.symm
  · rw [show snth ccTok 0 = some 'v' from rfl] at hc
    injection hc with h
    exact h2 h.symm

theorem natStr_notin_specials (n : Nat) : natStr n ∉ specialToks := by
  obtain ⟨d, hd, hh⟩ := natStr_head n
  obtain ⟨f1, f2, _⟩ := digit_facts d hd
  exact head_notin_specials _ _ hh f1 f2

theorem vserial_notin_specials (s : String) (hc : snth s 0 = some 'v')
    (h4 : snth s 4 = some 'i') : s ∉ specialToks := by
  intro hmem
  simp only [specialToks, List.mem_cons, List.not_mem_nil, or_false] at hmem
  rcases hmem with rfl | rfl | rfl
  · rw [show snth "-uuid" 0 = some '-' from rfl] at hc
    exact absurd hc (by decide)
  · rw [show snth "-pidfile" 0 = some '-' from rfl] at hc
    exact absurd hc (by decide)
  · rw [show snth ccTok 4 = some 's' from rfl] at h4
    exact absurd h4 (by decide)

theorem vport_notin_specials (s : String) (hc : snth s 0 = some 'v') (d : Nat)
    (hd : d < 10) (hl : slast s = some (Nat.digitChar d)) : s ∉ specialToks := by
  intro hmem
  simp only [specialToks, List.mem_cons, List.not_mem_nil, or_false] at hmem
  rcases hmem with rfl | rfl | rfl
  · rw [show snth "-uuid" 0 = some '-' from rfl] at hc
    exact absurd hc (by decide)
  · rw [show snth "-pidfile" 0 = some '-' from rfl] at hc
    exact absurd hc (by decide)
  · rw [show slast ccTok = some 'c' from rfl] at hl
    injection hl with h
    exact (digit_facts d hd).2.2 h.symm

theorem pathJoin_qemupid_notin_specials (p : String) :
    pathJoin p "qemu.pid" ∉ specialToks := by
  by_cases hp : p = ""
  · subst hp
    simp only [pathJoin, if_pos rfl]
    decide
  · have hpath : pathJoin p "qemu.pid" = p ++ "/" ++ "qemu.pid" := by
      simp [pathJoin, hp]
    rw [hpath]
    intro hmem
    simp only [specialToks, List.mem_cons, List.not_mem_nil, or_false] at hmem
    have hlast : slast (p ++ "/" ++ "qemu.pid") = some 'd' :=
      slast_append_right _ _ 'd' rfl
    have hlen : (p ++ "/" ++ "qemu.pid").length = p.length + 9 := by
      rw [String.length_append, String.length_append,
        show ("/" : String).length = 1 from rfl,
        show ("qemu.pid" : String).length = 8 from rfl]
    rcases hmem with heq | heq | heq
    · have hl2 := congrArg String.length heq
      rw [hlen, show ("-uuid" : String).length = 5 from rfl] at hl2
      omega
    · rw [heq] at hlast
      exact absurd hlast (by decide)
    · rw [heq] at hlast
      exact absurd hlast (by decide)

theorem count_specials_zero (seg : List String)
    (h : ∀ tok ∈ seg, tok ∉ specialToks) :
    ∀ t ∈ specialToks, seg.count t = 0 := by
  intro t ht
  rw [List.count_eq_zero]
  intro hmem
  exact h t hmem ht

end StringKit

section SegmentCounts

theorem headSeg_no_specials (vm : VMConfig) (id : Nat) (vmPath : String) :
    ∀ tok ∈ headSeg vm id vmPath, tok ∉ specialToks := by
  intro tok htok
  simp only [headSeg, List.mem_cons, List.not_mem_nil, or_false] at htok
  rcases htok with rfl|rfl|rfl|rfl|rfl|rfl|rfl|rfl|rfl|rfl|rfl|rfl|rfl|rfl|rfl|rfl|rfl|rfl|
    rfl|rfl|rfl|rfl|rfl|rfl|rfl
  all_goals try decide
  all_goals try exact natStr_notin_specials _
  · exact head_notin_specials _ 'u' (snth_append_left _ _ 0 'u' rfl) (by decide) (by decide)
  · exact head_notin_specials _ 'u'
      (snth_append_left _ _ 0 'u' (snth_append_left _ _ 0 'u' rfl)) (by decide) (by decide)

theorem serialSegFrom_no_specials (vmPath : String) :
    ∀ r i : Nat, ∀ tok ∈ serialSegFrom vmPath i r, tok ∉ specialToks := by
  intro r
  induction r with
  | zero =>
    intro i tok htok
    simp [serialSegFrom] at htok
  | succ r ih =>
    intro i tok htok
    simp only [serialSegFrom] at htok
    rw [List.mem_append] at htok
    rcases htok with h | h
    · simp only [List.mem_cons, List.not_mem_nil, or_false] at h
      rcases h with rfl | rfl | rfl | rfl
      · decide
      · exact head_notin_specials _ 's' (by
          repeat apply snth_append_left
          rfl) (by decide) (by decide)
      · decide
      · exact head_notin_specials _ 'i' (by
          repeat apply snth_append_left
          rfl) (by decide) (by decide)
    · exact ih (i + 1) tok h

theorem cpuSeg_no_specials (vm : VMConfig) (hcpu : vm.CPU ∉ specialToks) :
    ∀ tok ∈ cpuSeg vm, tok ∉ specialToks := by
  intro tok htok
  unfold cpuSeg at htok
  split at htok
  · simp only [List.mem_cons, List.not_mem_nil, or_false] at htok
    rcases htok with rfl | rfl
    · decide
    · exact hcpu
  · cases htok

theorem netNoneSeg_no_specials : ∀ tok ∈ netNoneSeg, tok ∉ specialToks := by
  intro tok htok
  simp only [netNoneSeg, List.mem_cons, List.not_mem_nil, or_false] at htok
  rcases htok with rfl | rfl | rfl <;> decide

theorem migrateSeg_no_specials (vm : VMConfig) :
    ∀ tok ∈ migrateSeg vm, tok ∉ specialToks := by
  intro tok htok
  unfold migrateSeg at htok
  split at htok
  · simp only [List.mem_cons, List.not_mem_nil, or_false] at htok
    rcases htok with rfl | rfl
    · decide
    · exact head_notin_specials _ 'e' (snth_append_left _ _ 0 'e' rfl) (by decide) (by decide)
  · cases htok

theorem diskSeg_no_specials (vm : VMConfig) :
    ∀ tok ∈ diskSeg vm, tok ∉ specialToks := by
  intro tok htok
  unfold diskSeg at htok
  rw [List.mem_flatMap] at htok
  obtain ⟨d, _, hd⟩ := htok
  simp only [List.mem_cons, List.not_mem_nil, or_false] at hd
  rcases hd with rfl | rfl
  · decide
  · exact head_notin_specials _ 'f' (by
      repeat apply snth_append_left
      rfl) (by decide) (by decide)

theorem snapshotSeg_no_specials (vm : VMConfig) :
    ∀ tok ∈ snapshotSeg vm, tok ∉ specialToks := by
  intro tok htok
  unfold snapshotSeg at htok
  split at htok
  · simp only [List.mem_cons, List.not_mem_nil, or_false] at htok
    rcases htok with rfl
    decide
  · cases htok

theorem kernelSeg_no_specials (vm : VMConfig)
    (hker : vm.KernelPath ∉ specialToks) (hini : vm.InitrdPath ∉ specialToks)
    (happ : unescapeString vm.Append ∉ specialToks) :
    ∀ tok ∈ kernelSeg vm, tok ∉ specialToks := by
  intro tok htok
  unfold kernelSeg at htok
  rw [List.mem_append, List.mem_append] at htok
  rcases htok with (h | h) | h
  · split at h
    · simp only [List.mem_cons, List.not_mem_nil, or_false] at h
      rcases h with rfl | rfl
      · decide
      · exact hker
    · cases h
  · split at h
    · simp only [List.mem_cons, List.not_mem_nil, or_false] at h
      rcases h with rfl | rfl
      · decide
      · exact hini
    · cases h
  · split at h
    · simp only [List.mem_cons, List.not_mem_nil, or_false] at h
      rcases h with rfl | rfl
      · decide
      · exact happ
    · cases h

theorem cdromSeg_no_specials (vm : VMConfig) :
    ∀ tok ∈ cdromSeg vm, tok ∉ specialToks := by
  intro tok htok
  unfold cdromSeg at htok
  split at htok
  · simp only [List.mem_cons, List.not_mem_nil, or_false] at htok
    rcases htok with rfl | rfl | rfl | rfl
    · decide
    · exact head_notin_specials _ 'f' (by
        repeat apply snth_append_left
        rfl) (by decide) (by decide)
    · decide
    · decide
  · simp only [List.mem_cons, List.not_mem_nil, or_false] at htok
    rcases htok with rfl | rfl <;> decide

theorem hugeSeg_no_specials (hp : String) (hh : hp ∉ specialToks) :
    ∀ tok ∈ hugeSeg hp, tok ∉ specialToks := by
  intro tok htok
  unfold hugeSeg at htok
  split at htok
  · simp only [List.mem_cons, List.not_mem_nil, or_false] at htok
    rcases htok with rfl | rfl
    · decide
    · exact hh
  · cases htok

theorem pidSeg_counts (vmPath : String) :
    (pidSeg vmPath).count "-pidfile" = 1 ∧ (pidSeg vmPath).count "-uuid" = 0 ∧
    (pidSeg vmPath).count ccTok = 0 := by
  have hpath := pathJoin_qemupid_notin_specials vmPath
  have hsplit : pidSeg vmPath =
      ["-pidfile"] ++ ([pathJoin vmPath "qemu.pid"] ++ ["-k", "en-us"]) := rfl
  refine ⟨?_, ?_, ?_⟩
  · rw [hsplit, List.count_append, List.count_append]
    have h1 : (["-pidfile"] : List String).count "-pidfile" = 1 := by decide
    have h2 : ([pathJoin vmPath "qemu.pid"] : List String).count "-pidfile" = 0 := by
      rw [List.count_eq_zero]
      intro hmem
      rcases List.mem_singleton.mp hmem with heq
      exact hpath (heq ▸ (by decide : ("-pidfile" : String) ∈ specialToks))
    have h3 : (["-k", "en-us"] : List String).count "-pidfile" = 0 := by decide
    omega
  · rw [hsplit, List.count_append, List.count_append]
    have h1 : (["-pidfile"] : List String).count "-uuid" = 0 := by decide
    have h2 : ([pathJoin vmPath "qemu.pid"] : List String).count "-uuid" = 0 := by
      rw [List.count_eq_zero]
      intro hmem
      rcases List.mem_singleton.mp hmem with heq
      exact hpath (heq ▸ (by decide : ("-uuid" : String) ∈ specialToks))
    have h3 : (["-k", "en-us"] : List String).count "-uuid" = 0 := by decide
    omega
  · rw [hsplit, List.count_append, List.count_append]
    have h1 : (["-pidfile"] : List String).count ccTok = 0 := by decide
    have h2 : ([pathJoin vmPath "qemu.pid"] : List String).count ccTok = 0 := by
      rw [List.count_eq_zero]
      intro hmem
      rcases List.mem_singleton.mp hmem with heq
      exact hpath (heq ▸ (by decide : ccTok ∈ specialToks))
    have h3 : (["-k", "en-us"] : List String).count ccTok = 0 := by decide
    omega

theorem uuidSeg_counts (vm : VMConfig) (huuid : vm.UUID ∉ specialToks) :
    (uuidSeg vm).count "-uuid" = 1 ∧ (uuidSeg vm).count "-pidfile" = 0 ∧
    (uuidSeg vm).count ccTok = 0 := by
  have hsplit : uuidSeg vm = ["-uuid"] ++ [vm.UUID] := rfl
  have hu : ∀ t ∈ specialToks, ([vm.UUID] : List String).count t = 0 := by
    intro t ht
    rw [List.count_eq_zero]
    intro hmem
    rcases List.mem_singleton.mp hmem with heq
    exact huuid (heq ▸ ht)
  refine ⟨?_, ?_, ?_⟩
  · rw [hsplit, List.count_append, hu "-uuid" (by decide)]
    decide
  · rw [hsplit, List.count_append, hu "-pidfile" (by decide)]
    decide
  · rw [hsplit, List.count_append, hu ccTok (by decide)]
    decide

theorem qemuAppend_counts (vm : VMConfig) (hqa : ∀ t ∈ vm.QemuAppend, t ∉ specialToks) :
    ∀ t ∈ specialToks, vm.QemuAppend.count t = 0 := by
  intro t ht
  rw [List.count_eq_zero]
  intro hmem
  exact hqa t hmem ht

end SegmentCounts

section RenderCounts

theorem renderPciEvent_no_specials (vmPath : String) (ev : PciEvent)
    (hev : ev ≠ PciEvent.ccport) :
    ∀ tok ∈ renderPciEvent vmPath ev, tok ∉ specialToks := by
  intro tok htok
  cases ev with
  | bridge b =>
    simp only [renderPciEvent, addBusToks, List.mem_cons, List.not_mem_nil, or_false] at htok
    rcases htok with rfl | rfl
    · decide
    · exact head_notin_specials _ 'p' (by
        repeat apply snth_append_left
        rfl) (by decide) (by decide)
  | nic tap driver mac b a =>
    simp only [renderPciEvent, List.mem_cons, List.not_mem_nil, or_false] at htok
    rcases htok with rfl | rfl | rfl | rfl
    · decide
    · exact head_notin_specials _ 't' (by
        repeat apply snth_append_left
        rfl) (by decide) (by decide)
    · decide
    · exact head_notin_specials _ 'd' (by
        repeat apply snth_append_left
        rfl) (by decide) (by decide)
  | vserial slot b a =>
    simp only [renderPciEvent, List.mem_cons, List.not_mem_nil, or_false] at htok
    rcases htok with rfl | rfl
    · decide
    · exact vserial_notin_specials _ (by
        repeat apply snth_append_left
        rfl) (by
        repeat apply snth_append_left
        rfl)
  | ccport => exact absurd rfl hev
  | vport i nr slot =>
    simp only [renderPciEvent, List.mem_cons, List.not_mem_nil, or_false] at htok
    rcases htok with rfl | rfl | rfl | rfl
    · decide
    · exact head_notin_specials _ 's' (by
        repeat apply snth_append_left
        rfl) (by decide) (by decide)
    · decide
    · exact vport_notin_specials _ (by
        repeat apply snth_append_left
        rfl) (i % 10) (Nat.mod_lt i (by omega))
        (slast_append_right _ _ _ (natStr_last i))

theorem ccport_render_counts (vmPath : String) :
    (renderPciEvent vmPath PciEvent.ccport).count "-uuid" = 0 ∧
    (renderPciEvent vmPath PciEvent.ccport).count "-pidfile" = 0 ∧
    (renderPciEvent vmPath PciEvent.ccport).count ccTok = 1 := by
  have hsock : ccTok ≠ "socket,id=charvserialCC,path=" ++ pathJoin vmPath "cc" ++
      ",server,nowait" := by
    apply ne_of_snth _ _ 0
    rw [show snth ccTok 0 = some 'v' from rfl]
    rw [snth_append_left ("socket,id=charvserialCC,path=" ++ pathJoin vmPath "cc")
      ",server,nowait" 0 's'
      (snth_append_left "socket,id=charvserialCC,path=" (pathJoin vmPath "cc") 0 's' rfl)]
    decide
  have hsplit : renderPciEvent vmPath PciEvent.ccport =
      ["-chardev", "socket,id=charvserialCC,path=" ++ pathJoin vmPath "cc" ++
        ",server,nowait", "-device"] ++ [ccTok] := rfl
  refine ⟨?_, ?_, ?_⟩
  · rw [hsplit, List.count_append]
    have h1 : (["-chardev", "socket,id=charvserialCC,path=" ++ pathJoin vmPath "cc" ++
        ",server,nowait", "-device"] : List String).count "-uuid" = 0 := by
      rw [List.count_eq_zero]
      intro hmem
      simp only [List.mem_cons, List.not_mem_nil, or_false] at hmem
      rcases hmem with h | h | h
      · exact absurd h (by decide)
      · have := head_notin_specials
          ("socket,id=charvserialCC,path=" ++ pathJoin vmPath "cc" ++ ",server,nowait") 's'
          (snth_append_left _ _ 0 's' (snth_append_left _ _ 0 's' rfl))
          (by decide) (by decide)
        exact this (h ▸ (by decide : ("-uuid" : String) ∈ specialToks))
      · exact absurd h (by decide)
    rw [h1]
    decide
  · rw [hsplit, List.count_append]
    have h1 : (["-chardev", "socket,id=charvserialCC,path=" ++ pathJoin vmPath "cc" ++
        ",server,nowait", "-device"] : List String).count "-pidfile" = 0 := by
      rw [List.count_eq_zero]
      intro hmem
      simp only [List.mem_cons, List.not_mem_nil, or_false] at hmem
      rcases hmem with h | h | h
      · exact absurd h (by decide)
      · have := head_notin_specials
          ("socket,id=charvserialCC,path=" ++ pathJoin vmPath "cc" ++ ",server,nowait") 's'
          (snth_append_left _ _ 0 's' (snth_append_left _ _ 0 's' rfl))
          (by decide) (by decide)
        exact this (h ▸ (by decide : ("-pidfile" : String) ∈ specialToks))
      · exact absurd h (by decide)
    rw [h1]
    decide
  · rw [hsplit, List.count_append]
    have h1 : (["-chardev", "socket,id=charvserialCC,path=" ++ pathJoin vmPath "cc" ++
        ",server,nowait", "-device"] : List String).count ccTok = 0 := by
      rw [List.count_eq_zero]
      intro hmem
      simp only [List.mem_cons, List.not_mem_nil, or_false] at hmem
      rcases hmem with h | h | h
      · exact absurd h (by decide)
      · exact hsock h
      · exact absurd h (by decide)
    rw [h1]
    simp [List.count_cons]

theorem count_flatMap_strings (l : List PciEvent) (f : PciEvent → List String) (t : String) :
    (l.flatMap f).count t = (l.map (fun ev => (f ev).count t)).sum := by
  induction l with
  | nil => rfl
  | cons a as ih => simp [List.flatMap_cons, List.count_append, ih]

theorem sum_map_ite_ccport (l : List PciEvent) :
    (l.map (fun ev => if ev = PciEvent.ccport then (1 : Nat) else 0)).sum =
      l.count PciEvent.ccport := by
  induction l with
  | nil => rfl
  | cons a as ih =>
    rw [List.map_cons, List.sum_cons, ih, List.count_cons]
    by_cases h : a = PciEvent.ccport
    · subst h
      simp
      omega
    · simp [h, Ne.symm h]

theorem ccport_notin_netEvents (ns : List NetConf) : ∀ bus addr : Nat,
    PciEvent.ccport ∉ (netEvents ns bus addr).1 := by
  induction ns with
  | nil =>
    intro bus addr h
    simp [netEvents] at h
  | cons n ns ih =>
    intro bus addr h
    simp only [netEvents] at h
    split at h
    · simp only [List.mem_cons] at h
      rcases h with h | h | h
      · cases h
      · cases h
      · exact ih (bus + 1) 1 h
    · simp only [List.mem_cons] at h
      rcases h with h | h
      · cases h
      · exact ih bus (addr + 1) h

theorem ccport_notin_virtioEvents (r : Nat) : ∀ i slot bus addr : Nat,
    PciEvent.ccport ∉ (virtioEvents r i slot bus addr).1 := by
  induction r with
  | zero =>
    intro i slot bus addr h
    simp [virtioEvents] at h
  | succ r ih =>
    intro i slot bus addr h
    simp only [virtioEvents] at h
    split at h
    · split at h
      · simp only [List.mem_cons] at h
        rcases h with h | h | h | h
        · cases h
        · cases h
        · cases h
        · exact ih (i + 1) (slot + 1) (bus + 1) 1 h
      · simp only [List.mem_cons] at h
        rcases h with h | h | h
        · cases h
        · cases h
        · exact ih (i + 1) (slot + 1) bus (addr + 1) h
    · simp only [List.mem_cons] at h
      rcases h with h | h
      · cases h
      · exact ih (i + 1) slot bus addr h

theorem ccEvents_count_ccport (bus addr : Nat) :
    (ccEvents bus addr).1.count PciEvent.ccport = 1 := by
  unfold ccEvents
  split <;> simp [List.count_cons]

theorem pciEvents_count_ccport (nets : List NetConf) (vports : Nat) :
    (pciEvents nets vports).count PciEvent.ccport = 1 := by
  unfold pciEvents
  rw [List.count_cons, List.count_append, List.count_append]
  rw [List.count_eq_zero.mpr (ccport_notin_netEvents nets 1 1)]
  rw [List.count_eq_zero.mpr (ccport_notin_virtioEvents vports 0 0 _ _)]
  rw [ccEvents_count_ccport]
  decide

theorem pciSeg_counts (vmPath : String) (nets : List NetConf) (vports : Nat) :
    (pciSeg vmPath nets vports).count "-uuid" = 0 ∧
    (pciSeg vmPath nets vports).count "-pidfile" = 0 ∧
    (pciSeg vmPath nets vports).count ccTok = 1 := by
  refine ⟨?_, ?_, ?_⟩
  · unfold pciSeg
    rw [count_flatMap_strings]
    apply List.sum_eq_zero
    intro x hx
    rw [List.mem_map] at hx
    obtain ⟨ev, _, rfl⟩ := hx
    by_cases hev : ev = PciEvent.ccport
    · subst hev
      exact (ccport_render_counts vmPath).1
    · rw [List.count_eq_zero]
      intro hmem
      exact renderPciEvent_no_specials vmPath ev hev _ hmem (by decide)
  · unfold pciSeg
    rw [count_flatMap_strings]
    apply List.sum_eq_zero
    intro x hx
    rw [List.mem_map] at hx
    obtain ⟨ev, _, rfl⟩ := hx
    by_cases hev : ev = PciEvent.ccport
    · subst hev
      exact (ccport_render_counts vmPath).2.1
    · rw [List.count_eq_zero]
      intro hmem
      exact renderPciEvent_no_specials vmPath ev hev _ hmem (by decide)
  · unfold pciSeg
    rw [count_flatMap_strings]
    have hmap : (pciEvents nets vports).map
        (fun ev => (renderPciEvent vmPath ev).count ccTok) =
        (pciEvents nets vports).map
          (fun ev => if ev = PciEvent.ccport then (1 : Nat) else 0) := by
      apply List.map_congr_left
      intro ev _
      by_cases hev : ev = PciEvent.ccport
      · subst hev
        rw [if_pos rfl]
        exact (ccport_render_counts vmPath).2.2
      · rw [if_neg hev, List.count_eq_zero]
        intro hmem
        exact renderPciEvent_no_specials vmPath ev hev _ hmem (by decide)
    rw [hmap, sum_map_ite_ccport, pciEvents_count_ccport]

end RenderCounts

section Nic33Claims

/-- C3 counterexample: with 33 identical NICs the 33rd NIC's `-device`
token (the last `driver=` token emitted) is addressed `bus=pci.2,addr=0x2`,
not `bus=pci.2,addr=0x1` as claimed (addresses 1..31 of `pci.1` serve NICs
1-31, so NIC 32 gets `pci.2,addr=0x1` and NIC 33 gets `pci.2,addr=0x2`). -/
theorem qemuArgs_33nics_counterexample :
    ((VMConfig.qemuArgs cfg33 0 "/x" "").filter (fun t => tokStarts "driver=" t)).getLast? =
      some "driver=e1000,netdev=t0,mac=00:11:22:33:44:55,bus=pci.2,addr=0x2" ∧
    "driver=e1000,netdev=t0,mac=00:11:22:33:44:55,bus=pci.2,addr=0x2" ≠
      "driver=e1000,netdev=t0,mac=00:11:22:33:44:55,bus=pci.2,addr=0x1" := by
  decide

/-- C3 (amended): a config with 33 identical NICs produces exactly two
`pci-bridge` tokens (`pci.1` and `pci.2`), and of the 33 NIC `-device`
tokens the 33rd (last) carries `bus=pci.2,addr=0x2`, the 32nd carrying
`bus=pci.2,addr=0x1`. -/
theorem qemuArgs_33nics :
    ((VMConfig.qemuArgs cfg33 0 "/x" "").filter (fun t => tokStarts "pci-bridge," t)) =
      ["pci-bridge,id=pci.1,chassis_nr=1", "pci-bridge,id=pci.2,chassis_nr=2"] ∧
    ((VMConfig.qemuArgs cfg33 0 "/x" "").filter (fun t => tokStarts "driver=" t)).length = 33 ∧
    ((VMConfig.qemuArgs cfg33 0 "/x" "").filter (fun t => tokStarts "driver=" t)).getLast? =
      some "driver=e1000,netdev=t0,mac=00:11:22:33:44:55,bus=pci.2,addr=0x2" ∧
    ((VMConfig.qemuArgs cfg33 0 "/x" "").filter (fun t => tokStarts "driver=" t))[31]? =
      some "driver=e1000,netdev=t0,mac=00:11:22:33:44:55,bus=pci.2,addr=0x1" := by
  decide

end Nic33Claims

section UniqueTokenClaims

/-- C5 counterexample: the claim quantifies over every configuration, but
`qemu-append` tokens are passed through verbatim (kvm.go lines 1051-1053),
so a config whose `QemuAppend` contains the literal `"-uuid"` yields an
argument vector with two `-uuid` tokens. -/
theorem qemuArgs_unique_tokens_counterexample :
    (VMConfig.qemuArgs cfgBad 0 "/x" "").count "-uuid" = 2 ∧ (2 : Nat) ≠ 1 := by
  decide

/-- C5 (amended): for every configuration whose free-form strings (cpu
model, kernel/initrd paths, joined kernel append, uuid, raw qemu-append
tokens, hugepages mount path) do not collide with the reserved tokens
`-uuid`, `-pidfile` and the cc `virtserialport` token, the argument vector
contains exactly one `-uuid`, which is the final option followed only by
the uuid value; exactly one `-pidfile`, immediately followed by
`<instance-dir>/qemu.pid` (a path inside the instance directory); and
exactly one `virtserialport` with `name=cc`, `nr=1` on `virtio-serial0`
(the `ccTok` token). -/
theorem qemuArgs_unique_tokens (vm : VMConfig) (id : Nat)
    (vmPath hugepagesMountPath : String)
    (hcpu : vm.CPU ∉ specialToks)
    (hker : vm.KernelPath ∉ specialToks)
    (hini : vm.InitrdPath ∉ specialToks)
    (happ : unescapeString vm.Append ∉ specialToks)
    (huuid : vm.UUID ∉ specialToks)
    (hqa : ∀ t ∈ vm.QemuAppend, t ∉ specialToks)
    (hhuge : hugepagesMountPath ∉ specialToks) :
    (VMConfig.qemuArgs vm id vmPath hugepagesMountPath).count "-uuid" = 1 ∧
    (∃ front, VMConfig.qemuArgs vm id vmPath hugepagesMountPath =
      front ++ ["-uuid", vm.UUID]) ∧
    (VMConfig.qemuArgs vm id vmPath hugepagesMountPath).count "-pidfile" = 1 ∧
    (∃ front back, VMConfig.qemuArgs vm id vmPath hugepagesMountPath =
      front ++ ["-pidfile", pathJoin vmPath "qemu.pid"] ++ back) ∧
    (vmPath ≠ "" → ∃ rest, pathJoin vmPath "qemu.pid" = vmPath ++ "/" ++ rest) ∧
    (VMConfig.qemuArgs vm id vmPath hugepagesMountPath).count ccTok = 1 := by
  have hhead := count_specials_zero _ (headSeg_no_specials vm id vmPath)
  have hserial := count_specials_zero _ (serialSegFrom_no_specials vmPath vm.SerialPorts 0)
  have hcpu' := count_specials_zero _ (cpuSeg_no_specials vm hcpu)
  have hnet := count_specials_zero _ netNoneSeg_no_specials
  have hmig := count_specials_zero _ (migrateSeg_no_specials vm)
  have hdisk := count_specials_zero _ (diskSeg_no_specials vm)
  have hsnap := count_specials_zero _ (snapshotSeg_no_specials vm)
  have hkern := count_specials_zero _ (kernelSeg_no_specials vm hker hini happ)
  have hcdrom := count_specials_zero _ (cdromSeg_no_specials vm)
  have hhuge' := count_specials_zero _ (hugeSeg_no_specials hugepagesMountPath hhuge)
  have hqa' := qemuAppend_counts vm hqa
  have hpid := pidSeg_counts vmPath
  have huu := uuidSeg_counts vm huuid
  have hpci := pciSeg_counts vmPath vm.Networks vm.VirtioPorts
  refine ⟨?_, ?_, ?_, ?_, ?_, ?_⟩
  · unfold VMConfig.qemuArgs
    simp only [List.count_append]
    rw [hhead "-uuid" (by decide), hserial "-uuid" (by decide), hpid.2.1,
      hcpu' "-uuid" (by decide), hnet "-uuid" (by decide), hmig "-uuid" (by decide),
      hdisk "-uuid" (by decide), hsnap "-uuid" (by decide), hkern "-uuid" (by decide),
      hcdrom "-uuid" (by decide), hpci.1, hhuge' "-uuid" (by decide),
      hqa' "-uuid" (by decide), huu.1]
  · exact ⟨headSeg vm id vmPath ++ serialSegFrom vmPath 0 vm.SerialPorts ++ pidSeg vmPath
      ++ cpuSeg vm ++ netNoneSeg ++ migrateSeg vm ++ diskSeg vm ++ snapshotSeg vm
      ++ kernelSeg vm ++ cdromSeg vm ++ pciSeg vmPath vm.Networks vm.VirtioPorts
      ++ hugeSeg hugepagesMountPath ++ vm.QemuAppend, rfl⟩
  · unfold VMConfig.qemuArgs
    simp only [List.count_append]
    rw [hhead "-pidfile" (by decide), hserial "-pidfile" (by decide), hpid.1,
      hcpu' "-pidfile" (by decide), hnet "-pidfile" (by decide),
      hmig "-pidfile" (by decide), hdisk "-pidfile" (by decide),
      hsnap "-pidfile" (by decide), hkern "-pidfile" (by decide),
      hcdrom "-pidfile" (by decide), hpci.2.1, hhuge' "-pidfile" (by decide),
      hqa' "-pidfile" (by decide), huu.2.1]
  · refine ⟨headSeg vm id vmPath ++ serialSegFrom vmPath 0 vm.SerialPorts,
      ["-k", "en-us"] ++ cpuSeg vm ++ netNoneSeg ++ migrateSeg vm ++ diskSeg vm
        ++ snapshotSeg vm ++ kernelSeg vm ++ cdromSeg vm
        ++ pciSeg vmPath vm.Networks vm.VirtioPorts ++ hugeSeg hugepagesMountPath
        ++ vm.QemuAppend ++ uuidSeg vm, ?_⟩
    unfold VMConfig.qemuArgs pidSeg
    simp [List.append_assoc]
  · intro h
    exact ⟨"qemu.pid", by simp [pathJoin, h]⟩
  · unfold VMConfig.qemuArgs
    simp only [List.count_append]
    rw [hhead ccTok (by decide), hserial ccTok (by decide), hpid.2.2,
      hcpu' ccTok (by decide), hnet ccTok (by decide), hmig ccTok (by decide),
      hdisk ccTok (by decide), hsnap ccTok (by decide), hkern ccTok (by decide),
      hcdrom ccTok (by decide), hpci.2.2, hhuge' ccTok (by decide),
      hqa' ccTok (by decide), huu.2.2]

/-- Witness for the amended C5 theorem at the benign concrete config
`cfgW`, id 0, instance dir `/x`, no hugepages. -/
theorem qemuArgs_unique_tokens_witness :
    (VMConfig.qemuArgs cfgW 0 "/x" "").count "-uuid" = 1 ∧
    (∃ front, VMConfig.qemuArgs cfgW 0 "/x" "" = front ++ ["-uuid", cfgW.UUID]) ∧
    (VMConfig.qemuArgs cfgW 0 "/x" "").count "-pidfile" = 1 ∧
    (∃ front back, VMConfig.qemuArgs cfgW 0 "/x" "" =
      front ++ ["-pidfile", pathJoin "/x" "qemu.pid"] ++ back) ∧
    (("/x" : String) ≠ "" → ∃ rest, pathJoin "/x" "qemu.pid" = "/x" ++ "/" ++ rest) ∧
    (VMConfig.qemuArgs cfgW 0 "/x" "").count ccTok = 1 :=
  qemuArgs_unique_tokens cfgW 0 "/x" "" (by decide) (by decide) (by decide) (by decide)
    (by decide) (by intro t ht; cases ht) (by decide)

end UniqueTokenClaims
